import Mathlib

/-!
# Clip-8: a CHIP-8 interpreter (src/clip-8.c)

A shallow embedding of the interpreter core of `clip-8.c`: the decoder
`decodeInstruction`, the executor `runInstruction`, the sprite routine
`drawSpriteToFramebuffer`, the fetch/execute step `clockCycle` and the frame
loop `mainLoop` with its timer statements.

Conventions of the embedding.
* The C globals (`ram`, `frameBuffer`, `stack`, `v`, `SP`, `DT`, `ST`, `I`, `PC`)
  become the fields of the record `Machine`, passed explicitly.
* C arrays are total functions from the index to the element; the element
  and scalar types (`uint8_t`, `uint16_t`) are natural numbers, with the
  range of the C type recorded by `Machine.wf`.  Every store whose value can
  leave the range of its C type is truncated explicitly (`u8`, `u16`, `u32`).
  The source checks no array bound except the clipping test of the sprite
  routine; an index past the declared size (undefined behaviour in C) reads
  or writes the function at that index, and the theorems name the bounds
  (`RAM_SIZE`, `STACK_SIZE`) they are stated for.
* The value of an `opcode_t` is the integer value of the C enumerator, so that
  the `default:` branch of the `switch` in `runInstruction` exists in the model.
* The two calls into the host (`rand()` and raylib `IsKeyDown`) read the
  record `Host`; `mainLoop` takes the number of frames after which
  `WindowShouldClose()` turns true.  Console output (`printf`) and the drawing
  of the screen, which only reads the framebuffer, are not modelled.
-/

namespace Clip8

/-! ## Definitions (`#define`) -/

def PROGRAM_START : Nat := 0x200
def RAM_SIZE : Nat := 4096
def MEMORY_END : Nat := 0xFFF
def STACK_SIZE : Nat := 0x10
def SCREEN_WIDTH : Nat := 64
def SCREEN_HEIGHT : Nat := 32
def TARGET_FPS : Nat := 60
def INSTRUCTIONS_PER_FRAME : Nat := 12

/-! ## `opcode_t` -/

/-- The C enumeration `opcode_t`, by the integer value of each enumerator. -/
abbrev opcode_t := Int

def ROM_END : opcode_t := -2
def ILLEGAL : opcode_t := -1
def SYS     : opcode_t := 0
def CLS     : opcode_t := 1
def RET     : opcode_t := 2
def JPADR   : opcode_t := 3
def CALL    : opcode_t := 4
def SEIMM   : opcode_t := 5
def SNE     : opcode_t := 6
def SEREG   : opcode_t := 7
def LDIMM   : opcode_t := 8
def ADDIMM  : opcode_t := 9
def LDI     : opcode_t := 10
def OR      : opcode_t := 11
def AND     : opcode_t := 12
def XOR     : opcode_t := 13
def ADDREG  : opcode_t := 14
def SUB     : opcode_t := 15
def SHR     : opcode_t := 16
def SUBN    : opcode_t := 17
def SHL     : opcode_t := 18
def SNEREG  : opcode_t := 19
def LD      : opcode_t := 20
def JPREG   : opcode_t := 21
def RND     : opcode_t := 22
def DRW     : opcode_t := 23
def SKP     : opcode_t := 24
def SKNP    : opcode_t := 25
def LDREGDT : opcode_t := 26
def LDK     : opcode_t := 27
def LDDTVX  : opcode_t := 28
def LDSTVX  : opcode_t := 29
def ADDIVX  : opcode_t := 30
def LDFVX   : opcode_t := 31
def LDBVX   : opcode_t := 32
def LDIVX   : opcode_t := 33
def LDVXI   : opcode_t := 34

/-! ## C integer conversions -/

/-- Conversion of a C `int` value to `uint8_t`. -/
def u8 (i : Int) : Nat := (i % 256).toNat

/-- Conversion of a C `int` value to `uint16_t`. -/
def u16 (i : Int) : Nat := (i % 65536).toNat

/-- Conversion of a C `int` value to `uint32_t`. -/
def u32 (i : Int) : Nat := (i % 4294967296).toNat

/-! ## Machine state (the global variables) -/

/-- The global variables of `clip-8.c`. -/
structure Machine where
  /-- `uint8_t ram[RAM_SIZE]` -/
  ram : Nat → Nat
  /-- `uint8_t frameBuffer[SCREEN_WIDTH][SCREEN_HEIGHT]` -/
  frameBuffer : Nat → Nat → Nat
  /-- `uint16_t stack[STACK_SIZE]` -/
  stack : Nat → Nat
  /-- `uint8_t v[0x10]` -/
  v : Nat → Nat
  /-- `uint8_t SP` -/
  SP : Nat
  /-- `uint8_t DT` -/
  DT : Nat
  /-- `uint8_t ST` -/
  ST : Nat
  /-- `uint16_t I` -/
  I : Nat
  /-- `uint16_t PC` -/
  PC : Nat

/-- Every variable holds a value of its C type. -/
def Machine.wf (s : Machine) : Prop :=
  (∀ a, s.ram a < 256) ∧ (∀ c r, s.frameBuffer c r < 256) ∧
  (∀ k, s.stack k < 65536) ∧ (∀ k, s.v k < 256) ∧
  s.SP < 256 ∧ s.DT < 256 ∧ s.ST < 256 ∧ s.I < 65536 ∧ s.PC < 65536

/-- The state at program start: the initialisers of the globals, over a given `ram`. -/
def Machine.init (ram : Nat → Nat) : Machine :=
  { ram := ram, frameBuffer := fun _ _ => 0, stack := fun _ => 0, v := fun _ => 0,
    SP := 0, DT := 0, ST := 0, I := 0, PC := 0x200 }

/-- Assignment `a[i][j] = val` on a two-dimensional array. -/
def set2 (a : Nat → Nat → Nat) (i j val : Nat) : Nat → Nat → Nat :=
  Function.update a i (Function.update (a i) j val)

/-! ## Host collaborators -/

/-- The raylib key codes that `obtainKey` polls. -/
inductive KeyboardKey where
  | KEY_ONE | KEY_TWO | KEY_THREE | KEY_FOUR
  | KEY_Q | KEY_W | KEY_E | KEY_R
  | KEY_A | KEY_S | KEY_D | KEY_F
  | KEY_Z | KEY_X | KEY_C | KEY_V
  deriving DecidableEq

/-- What the host answers during one instruction: the value of `rand()`
(a non-negative `int`) and the raylib predicate `IsKeyDown`. -/
structure Host where
  rand : Nat
  IsKeyDown : KeyboardKey → Bool

/-- Function `obtainKey`: the hex value of the first key found down, `0xFF` if none. -/
def obtainKey (h : Host) : Nat :=
  if h.IsKeyDown .KEY_ONE then 0x1 else
  if h.IsKeyDown .KEY_TWO then 0x2 else
  if h.IsKeyDown .KEY_THREE then 0x3 else
  if h.IsKeyDown .KEY_FOUR then 0xC else
  if h.IsKeyDown .KEY_Q then 0x4 else
  if h.IsKeyDown .KEY_W then 0x5 else
  if h.IsKeyDown .KEY_E then 0x6 else
  if h.IsKeyDown .KEY_R then 0xD else
  if h.IsKeyDown .KEY_A then 0x7 else
  if h.IsKeyDown .KEY_S then 0x8 else
  if h.IsKeyDown .KEY_D then 0x9 else
  if h.IsKeyDown .KEY_F then 0xE else
  if h.IsKeyDown .KEY_Z then 0xA else
  if h.IsKeyDown .KEY_X then 0x0 else
  if h.IsKeyDown .KEY_C then 0xB else
  if h.IsKeyDown .KEY_V then 0xF else
  0xFF

/-! ## Decoder -/

/-- Function `decodeInstruction`. -/
def decodeInstruction (codedInstruction : Nat) : opcode_t :=
  let hi  := (codedInstruction &&& 0xF000) >>> 12
  let lo8 := codedInstruction &&& 0x00FF
  let lo4 := codedInstruction &&& 0x000F
  if codedInstruction = 0x0000 then ROM_END else
  match hi with
  | 0x0 =>
    if codedInstruction = 0x00E0 then CLS
    else if codedInstruction = 0x00EE then RET
    else SYS
  | 0x1 => JPADR
  | 0x2 => CALL
  | 0x3 => SEIMM
  | 0x4 => SNE
  | 0x5 => if lo4 = 0 then SEREG else ILLEGAL
  | 0x6 => LDIMM
  | 0x7 => ADDIMM
  | 0x8 =>
    match lo4 with
    | 0 => LDI
    | 1 => OR
    | 2 => AND
    | 3 => XOR
    | 4 => ADDREG
    | 5 => SUB
    | 6 => SHR
    | 7 => SUBN
    | 0xE => SHL
    | _ => ILLEGAL
  | 0x9 => if lo4 = 0 then SNEREG else ILLEGAL
  | 0xA => LD
  | 0xB => JPREG
  | 0xC => RND
  | 0xD => DRW
  | 0xE =>
    if lo8 = 0x9E then SKP
    else if lo8 = 0xA1 then SKNP
    else ILLEGAL
  | 0xF =>
    let byte2 := codedInstruction &&& 0x00FF
    match byte2 with
    | 0x07 => LDREGDT
    | 0x0A => LDK
    | 0x15 => LDDTVX
    | 0x18 => LDSTVX
    | 0x1E => ADDIVX
    | 0x29 => LDFVX
    | 0x33 => LDBVX
    | 0x55 => LDIVX
    | 0x65 => LDVXI
    | _ => ILLEGAL
  | _ => ILLEGAL

/-! ## Sprite drawing -/

/-- The body of the inner loop of `drawSpriteToFramebuffer`, for row `i` and bit `j`
of a sprite drawn at `(x, y)`. -/
def drawPixel (sprite : Nat → Nat) (x y i j : Nat) (s : Machine) : Machine :=
  if x + j ≥ SCREEN_WIDTH ∨ y + i ≥ SCREEN_HEIGHT then s
  else
    let s1 : Machine :=
      if ((sprite i >>> (7 - j)) &&& 0x0001) ≠ 0 ∧ s.frameBuffer (x + j) (y + i) ≠ 0 then
        { s with v := Function.update s.v 0xF 1 }
      else s
    let cell := s1.frameBuffer (x + j) (y + i) ^^^ ((sprite i >>> (7 - j)) &&& 0x0001)
    { s1 with frameBuffer := set2 s1.frameBuffer (x + j) (y + i) cell }

/-- Function `drawSpriteToFramebuffer`. -/
def drawSpriteToFramebuffer (instruction : Nat) (s : Machine) : Machine :=
  let height := instruction &&& 0x000F
  let sprite : Nat → Nat :=
    (List.range height).foldl (fun sprite i => Function.update sprite i (s.ram (s.I + i)))
      (fun _ => 0)
  let s0 : Machine := { s with v := Function.update s.v 0xF 0 }
  let x := s0.v ((instruction &&& 0x0F00) >>> 8)
  let y := s0.v ((instruction &&& 0x00F0) >>> 4)
  (List.range height).foldl
    (fun st i => (List.range 8).foldl (fun st j => drawPixel sprite x y i j st) st) s0

/-! ## Executor -/

/-- Function `runInstruction`: the return value and the machine afterwards. -/
def runInstruction (opcode : opcode_t) (instruction : Nat) (h : Host) (s : Machine) :
    Int × Machine :=
  let x := (instruction &&& 0x0F00) >>> 8
  let y := (instruction &&& 0x00F0) >>> 4
  if opcode = ROM_END then (-1, s)
  else if opcode = ILLEGAL then (-1, s)
  else if opcode = SYS then (-1, s)
  else if opcode = CLS then
    let cleared := (List.range SCREEN_WIDTH).foldl
      (fun fb i => (List.range SCREEN_HEIGHT).foldl (fun fb j => set2 fb i j 0) fb)
      s.frameBuffer
    (0, { s with frameBuffer := cleared })
  else if opcode = RET then
    (0, { s with PC := s.stack s.SP, SP := u8 (s.SP - 1) })
  else if opcode = JPADR then
    (0, { s with PC := u16 ((instruction &&& 0x0FFF : Nat) - 2) })
  else if opcode = CALL then
    let sp := u8 (s.SP + 1)
    (0, { s with SP := sp, stack := Function.update s.stack sp s.PC,
                 PC := u16 ((instruction &&& 0x0FFF : Nat) - 2) })
  else if opcode = SEIMM then
    (0, if s.v x = instruction &&& 0x00FF then { s with PC := u16 (s.PC + 2) } else s)
  else if opcode = SNE then
    (0, if s.v x ≠ instruction &&& 0x00FF then { s with PC := u16 (s.PC + 2) } else s)
  else if opcode = SEREG then
    (0, if s.v x = s.v y then { s with PC := u16 (s.PC + 2) } else s)
  else if opcode = LDIMM then
    (0, { s with v := Function.update s.v x (instruction &&& 0x00FF) })
  else if opcode = ADDIMM then
    (0, { s with v := Function.update s.v x (u8 (s.v x + (instruction &&& 0x00FF : Nat))) })
  else if opcode = LDI then
    (0, { s with v := Function.update s.v x (s.v y) })
  else if opcode = OR then
    (0, { s with v := Function.update s.v x (s.v x ||| s.v y) })
  else if opcode = AND then
    (0, { s with v := Function.update s.v x (s.v x &&& s.v y) })
  else if opcode = XOR then
    (0, { s with v := Function.update s.v x (s.v x ^^^ s.v y) })
  else if opcode = ADDREG then
    let res1 := u32 (s.v x + s.v y)
    let v1 := Function.update s.v x (res1 &&& 0x00FF)
    (0, { s with v := Function.update v1 0xF (if res1 &&& 0xFF00 ≠ 0 then 1 else 0) })
  else if opcode = SUB then
    let res2 := u32 (s.v x - s.v y)
    let v1 := Function.update s.v x (res2 &&& 0x00FF)
    (0, { s with v := Function.update v1 0xF (if res2 &&& 0xFF00 = 0 then 1 else 0) })
  else if opcode = SHR then
    let f1 := s.v x &&& 0x01
    let v1 := Function.update s.v x (s.v x >>> 1)
    (0, { s with v := Function.update v1 0xF f1 })
  else if opcode = SUBN then
    let v1 := Function.update s.v x (u8 (s.v y - s.v x))
    (0, { s with v := Function.update v1 0xF (if v1 y > v1 x then 1 else 0) })
  else if opcode = SHL then
    let f2 := if s.v x &&& 0x80 = 0 then 0 else 1
    let v1 := Function.update s.v x (u8 ((s.v x <<< 1 : Nat)))
    (0, { s with v := Function.update v1 0xF f2 })
  else if opcode = SNEREG then
    (0, { s with PC := u16 (s.PC + (if s.v x ≠ s.v y then 2 else 0 : Nat)) })
  else if opcode = LD then
    (0, { s with I := instruction &&& 0x0FFF })
  else if opcode = JPREG then
    (0, { s with PC := u16 ((instruction &&& 0x0FFF : Nat) + s.v 0x0 - 2) })
  else if opcode = RND then
    (0, { s with v := Function.update s.v x (h.rand % 0x100 &&& (instruction &&& 0x00FF)) })
  else if opcode = DRW then
    (0, drawSpriteToFramebuffer instruction s)
  else if opcode = SKP then
    (0, if obtainKey h = s.v x then { s with PC := u16 (s.PC + 2) } else s)
  else if opcode = SKNP then
    (0, if obtainKey h ≠ s.v x then { s with PC := u16 (s.PC + 2) } else s)
  else if opcode = LDREGDT then
    (0, { s with v := Function.update s.v x s.DT })
  else if opcode = LDK then
    (0, { s with v := Function.update s.v x (obtainKey h) })
  else if opcode = LDDTVX then
    (0, { s with DT := s.v x })
  else if opcode = LDSTVX then
    (0, { s with ST := s.v x })
  else if opcode = ADDIVX then
    (0, { s with I := u16 (s.I + s.v x) })
  else if opcode = LDFVX then
    (0, { s with I := s.v x * 5 })
  else if opcode = LDBVX then
    let value := s.v x
    let ram1 := Function.update s.ram s.I (value / 100)
    let ram2 := Function.update ram1 (s.I + 1) ((value / 10) % 10)
    let ram3 := Function.update ram2 (s.I + 2) (value % 10)
    (0, { s with ram := ram3 })
  else if opcode = LDIVX then
    (0, (List.range (x + 1)).foldl
      (fun st i => { st with ram := Function.update st.ram ((st.I &&& 0xFFF) + i) (st.v i) }) s)
  else if opcode = LDVXI then
    (0, (List.range (x + 1)).foldl
      (fun st i => { st with v := Function.update st.v i (st.ram ((st.I &&& 0x0FFF) + i)) }) s)
  else (-1, s)

/-- Function `clockCycle`: fetch, decode, execute, and the uniform `PC += 2`. -/
def clockCycle (h : Host) (s : Machine) : Machine :=
  let instruction := u16 ((s.ram s.PC <<< 8 ||| s.ram (s.PC + 1) : Nat))
  let opcode := decodeInstruction instruction
  let s1 := (runInstruction opcode instruction h s).2
  { s1 with PC := u16 (s1.PC + 2) }

/-- The instruction word that `clockCycle` fetches: the two bytes at `PC`, big-endian. -/
def fetch (s : Machine) : Nat :=
  u16 ((s.ram s.PC <<< 8 ||| s.ram (s.PC + 1) : Nat))

/-- The index of `stack` that `runInstruction` uses: `RET` reads `stack[SP]`, `CALL` writes
`stack[SP]` after `SP++`; no other case touches the stack. -/
def stackIndex (opcode : opcode_t) (s : Machine) : Option Nat :=
  if opcode = RET then some s.SP
  else if opcode = CALL then some (u8 (s.SP + 1))
  else none

/-! ## Main loop -/

/-- The `for` loop of `mainLoop`: `n` calls of `clockCycle`, the call number `i` with the
host answers `h i`. -/
def cycles (n : Nat) (h : Nat → Host) (s : Machine) : Machine :=
  (List.range n).foldl (fun st i => clockCycle (h i) st) s

/-- The two timer statements that end an iteration of `mainLoop`:
`DT -= DT == 0 ? 0 : 1; ST -= ST == 0 ? 0 : 1;`. -/
def timerStep (s : Machine) : Machine :=
  let s1 : Machine := { s with DT := u8 (s.DT - (if s.DT = 0 then 0 else 1 : Nat)) }
  { s1 with ST := u8 (s1.ST - (if s1.ST = 0 then 0 else 1 : Nat)) }

/-- One iteration of the `while` loop of `mainLoop`: `INSTRUCTIONS_PER_FRAME` cycles, the
drawing of the screen (which reads the framebuffer only) and the timer statements. -/
def frameTick (h : Nat → Host) (s : Machine) : Machine :=
  timerStep (cycles INSTRUCTIONS_PER_FRAME h s)

/-- Function `mainLoop`, for a host whose `WindowShouldClose()` turns true after `frames`
iterations; `h f i` are the host answers in cycle `i` of frame `f`. -/
def mainLoop (frames : Nat) (h : Nat → Nat → Host) (s : Machine) : Machine :=
  (List.range frames).foldl (fun st f => frameTick (h f) st) s

/-! ## The instruction table of the specification -/

/-- The undefined bit patterns, in the words of the specification: `5xyn` or `9xyn`
with `n != 0`, `8xyn` with `n` in `{8,9,A,B,C,D,F}`, `Exkk` with `kk` not in `{9E,A1}`,
`Fxkk` with `kk` not in `{07,0A,15,18,1E,29,33,55,65}`. -/
@[reducible] def undefinedPattern (w : Nat) : Prop :=
  ((w / 4096 = 5 ∨ w / 4096 = 9) ∧ w % 16 ≠ 0) ∨
  (w / 4096 = 8 ∧ w % 16 ∈ [8, 9, 0xA, 0xB, 0xC, 0xD, 0xF]) ∨
  (w / 4096 = 0xE ∧ w % 256 ∉ [0x9E, 0xA1]) ∨
  (w / 4096 = 0xF ∧ w % 256 ∉ [0x07, 0x0A, 0x15, 0x18, 0x1E, 0x29, 0x33, 0x55, 0x65])

/-- The CHIP-8 table of the specification: the tag of a 16-bit word, read off its
group nibble `w / 4096` and, inside a group, its low nibble or low byte only. -/
def chip8Table (w : Nat) : opcode_t :=
  if w = 0x0000 then ROM_END
  else if undefinedPattern w then ILLEGAL
  else if w = 0x00E0 then CLS
  else if w = 0x00EE then RET
  else
    match w / 4096 with
    | 0x0 => SYS
    | 0x1 => JPADR
    | 0x2 => CALL
    | 0x3 => SEIMM
    | 0x4 => SNE
    | 0x5 => SEREG
    | 0x6 => LDIMM
    | 0x7 => ADDIMM
    | 0x8 =>
      match w % 16 with
      | 0x0 => LDI
      | 0x1 => OR
      | 0x2 => AND
      | 0x3 => XOR
      | 0x4 => ADDREG
      | 0x5 => SUB
      | 0x6 => SHR
      | 0x7 => SUBN
      | _ => SHL
    | 0x9 => SNEREG
    | 0xA => LD
    | 0xB => JPREG
    | 0xC => RND
    | 0xD => DRW
    | 0xE => if w % 256 = 0x9E then SKP else SKNP
    | _ =>
      match w % 256 with
      | 0x07 => LDREGDT
      | 0x0A => LDK
      | 0x15 => LDDTVX
      | 0x18 => LDSTVX
      | 0x1E => ADDIVX
      | 0x29 => LDFVX
      | 0x33 => LDBVX
      | 0x55 => LDIVX
      | _ => LDVXI

/-- The `case` labels of the `switch` in `runInstruction`, in source order; an opcode
outside this list runs the `default:` branch (`OPCODE UNDEFINED`). -/
def caseLabels : List opcode_t :=
  [ROM_END, ILLEGAL, SYS, CLS, RET, JPADR, CALL, SEIMM, SNE, SEREG, LDIMM, ADDIMM, LDI, OR,
   AND, XOR, ADDREG, SUB, SHR, SUBN, SHL, SNEREG, LD, JPREG, RND, DRW, SKP, SKNP, LDREGDT,
   LDK, LDDTVX, LDSTVX, ADDIVX, LDFVX, LDBVX, LDIVX, LDVXI]

/-! ## Instruction words -/

/-- The instruction word with group nibble `g`, register fields `x`, `y` and low nibble `n`
(written `gxyn` in the specification, e.g. `8xy4`, `Dxyn`). -/
def encXYN (g x y n : Nat) : Nat := g * 0x1000 + x * 0x100 + y * 0x10 + n

/-- The instruction word with group nibble `g`, register field `x` and low byte `kk`
(written `gxkk` in the specification, e.g. `3xkk`). -/
def encXKK (g x kk : Nat) : Nat := g * 0x1000 + x * 0x100 + kk

/-- The instruction word with group nibble `g` and address field `nnn`
(written `gnnn` in the specification, e.g. `1nnn`). -/
def encNNN (g nnn : Nat) : Nat := g * 0x1000 + nnn

/-- A host with no key down, whose `rand()` returns 0. -/
def idleHost : Host := { rand := 0, IsKeyDown := fun _ => false }

/-- A machine at program start over an all-zero memory, with `V1 = a` and `V2 = b`. -/
def regMachine (a b : Nat) : Machine :=
  { Machine.init (fun _ => 0) with v := fun k => if k = 1 then a else if k = 2 then b else 0 }

/-- A machine whose PC (0x200) points at the two bytes `hi`, `0x10`, with `V1 = 0x10`. -/
def skipMachine (hi : Nat) : Machine :=
  { regMachine 0x10 0 with ram := fun a => if a = 0x200 then hi else 0x10 }

/-- A machine with `V1 = 60`, `V2 = 0`, `I = 0`, every byte of memory `0xFF` and every
framebuffer cell equal to `fill`. -/
def spriteMachine (fill : Nat) : Machine :=
  { regMachine 60 0 with ram := fun _ => 0xFF, frameBuffer := fun _ _ => fill }

/-- The machine at program start with the bytes of `rom` loaded from `PROGRAM_START` on
and every other byte of memory zero. -/
def romMachine (rom : List Nat) : Machine :=
  Machine.init (fun a => if a < PROGRAM_START then 0 else rom.getD (a - PROGRAM_START) 0)

/-- A machine at program start over an all-zero memory with `VF = 200` and every other
register 100. -/
def flagMachine : Machine :=
  { Machine.init (fun _ => 0) with v := fun k => if k = 0xF then 200 else 100 }

/-- A machine with `VF = 60`, every other register 0, `I = 0`, every byte of memory `0xFF`
and an empty framebuffer. -/
def vfSpriteMachine : Machine :=
  { Machine.init (fun _ => 0xFF) with v := fun k => if k = 0xF then 60 else 0 }

/-- The machine at program start over the program `1200` (a jump to itself), with
`DT = 1` and `ST = 3`. -/
def timerMachine : Machine :=
  { romMachine [0x12, 0x00] with DT := 1, ST := 3 }

/-! ## Conditions on the executed instructions -/

/-- An address is even and inside the program area `0x200 .. 0xFFF`. -/
@[reducible] def inProgramArea (t : Nat) : Prop :=
  t % 2 = 0 ∧ PROGRAM_START ≤ t ∧ t ≤ MEMORY_END

/-- The instruction at PC does not lead out of the program area: the target of a jump or
call (`nnn`, `nnn + V0`) and the address after a return (`stack[SP] + 2`) are even and inside
the program area, and any other instruction leaves room for the next instruction and a
skipped one. -/
@[reducible] def pcGuard (s : Machine) : Prop :=
  (decodeInstruction (fetch s) = JPADR ∨ decodeInstruction (fetch s) = CALL →
    inProgramArea (fetch s &&& 0x0FFF)) ∧
  (decodeInstruction (fetch s) = JPREG → inProgramArea ((fetch s &&& 0x0FFF) + s.v 0x0)) ∧
  (decodeInstruction (fetch s) = RET → inProgramArea (s.stack s.SP + 2)) ∧
  (decodeInstruction (fetch s) ≠ JPADR → decodeInstruction (fetch s) ≠ CALL →
    decodeInstruction (fetch s) ≠ JPREG → decodeInstruction (fetch s) ≠ RET →
    s.PC + 4 ≤ MEMORY_END)

/-- The instruction at PC neither returns on an empty stack nor calls with the last slot of
the stack in use. -/
@[reducible] def spGuard (s : Machine) : Prop :=
  (decodeInstruction (fetch s) = RET → 1 ≤ s.SP) ∧
  (decodeInstruction (fetch s) = CALL → s.SP + 1 < STACK_SIZE)

/-- A program of sixteen nested calls: the call at `0x200 + 2 * i` targets the next one. -/
def nestedCalls : List Nat :=
  [0x22, 0x02, 0x22, 0x04, 0x22, 0x06, 0x22, 0x08, 0x22, 0x0A, 0x22, 0x0C, 0x22, 0x0E,
   0x22, 0x10, 0x22, 0x12, 0x22, 0x14, 0x22, 0x16, 0x22, 0x18, 0x22, 0x1A, 0x22, 0x1C,
   0x22, 0x1E, 0x22, 0x20]

/-- A machine with `V1 = 157` and `I = 0x1000`, one past the last byte of memory. -/
def bcdMachine : Machine :=
  { regMachine 157 0 with I := 0x1000 }

/-! ## Auxiliary definitions for the sprite loops -/

/-- The pairs `(i, j)` visited by the two nested loops of `drawSpriteToFramebuffer`
for a sprite of `n` rows, in the order of the visit. -/
def pixels (n : Nat) : List (Nat × Nat) :=
  (List.range n).flatMap (fun i => (List.range 8).map (fun j => (i, j)))

/-- The loop body `drawPixel` run over a list of `(row, bit)` pairs. -/
def drawPixels (sprite : Nat → Nat) (x y : Nat) (ps : List (Nat × Nat)) (s : Machine) :
    Machine :=
  ps.foldl (fun st p => drawPixel sprite x y p.1 p.2 st) s

/-! # Theorems -/

/-! ## Bit masks as division and remainder -/

theorem and_mask_shift (w n k : Nat) :
    (w &&& ((2 ^ n - 1) <<< k)) >>> k = (w / 2 ^ k) % 2 ^ n := by
  apply Nat.eq_of_testBit_eq
  intro j
  rw [← Nat.shiftRight_eq_div_pow]
  simp only [Nat.testBit_shiftRight, Nat.testBit_and, Nat.testBit_shiftLeft,
    Nat.testBit_two_pow_sub_one, Nat.testBit_mod_two_pow]
  have hkj : k + j - k = j := by omega
  rw [hkj]
  by_cases hj : j < n <;> simp [hj, Bool.and_comm]

theorem and_mask (w n k : Nat) :
    w &&& ((2 ^ n - 1) <<< k) = ((w / 2 ^ k) % 2 ^ n) * 2 ^ k := by
  apply Nat.eq_of_testBit_eq
  intro j
  rw [← Nat.shiftRight_eq_div_pow, ← Nat.shiftLeft_eq]
  simp only [Nat.testBit_shiftRight, Nat.testBit_and, Nat.testBit_shiftLeft,
    Nat.testBit_two_pow_sub_one, Nat.testBit_mod_two_pow]
  by_cases hk : k ≤ j
  · have hkj : k + (j - k) = j := by omega
    rw [hkj]
    by_cases hj : j - k < n <;> simp [hj, hk, Bool.and_comm]
  · simp [hk]

theorem and_F000_shift (w : Nat) : (w &&& 0xF000) >>> 12 = w / 4096 % 16 :=
  and_mask_shift w 4 12

theorem and_0F00_shift (w : Nat) : (w &&& 0x0F00) >>> 8 = w / 256 % 16 :=
  and_mask_shift w 4 8

theorem and_00F0_shift (w : Nat) : (w &&& 0x00F0) >>> 4 = w / 16 % 16 :=
  and_mask_shift w 4 4

theorem and_0FFF (w : Nat) : w &&& 0x0FFF = w % 4096 :=
  Nat.and_pow_two_sub_one_eq_mod w 12

theorem and_00FF (w : Nat) : w &&& 0x00FF = w % 256 :=
  Nat.and_pow_two_sub_one_eq_mod w 8

theorem and_000F (w : Nat) : w &&& 0x000F = w % 16 :=
  Nat.and_pow_two_sub_one_eq_mod w 4

theorem and_FF00 (w : Nat) : w &&& 0xFF00 = w / 256 % 256 * 256 :=
  and_mask w 8 8

theorem and_80 (w : Nat) : w &&& 0x80 = w / 128 % 2 * 128 :=
  and_mask w 1 7

/-! ## The decoder -/

theorem decodeInstruction_eq_chip8Table (w : Nat) (hw : w < 65536) :
    decodeInstruction w = chip8Table w := by
  have hq : w / 4096 < 16 := by omega
  unfold decodeInstruction chip8Table undefinedPattern
  simp only [and_F000_shift, and_00FF, and_000F, Nat.mod_eq_of_lt hq]
  by_cases h0 : w = 0
  · simp [h0]
  · rw [if_neg h0, if_neg h0]
    interval_cases hq4 : w / 4096
    · simp
    all_goals (have h1 : w ≠ 224 := by omega)
    all_goals (have h2 : w ≠ 238 := by omega)
    all_goals simp only [h1, h2, if_false]
    all_goals try (simp; done)
    · have h16 : w % 16 < 16 := Nat.mod_lt _ (by norm_num)
      interval_cases hn : w % 16 <;> simp
    · by_cases h9 : w % 256 = 158 <;> by_cases hA : w % 256 = 161 <;> simp [h9, hA]
    · generalize w % 256 = b
      simp only [List.mem_cons, List.mem_singleton, not_or]
      split
      all_goals try (simp; done)
      rename_i h7 h10 h21 h24 h30 h41 h51 h85 h101
      have hb : ¬b = 7 ∧ ¬b = 10 ∧ ¬b = 21 ∧ ¬b = 24 ∧ ¬b = 30 ∧ ¬b = 41 ∧ ¬b = 51 ∧ ¬b = 85 ∧
          ¬b = 101 := ⟨h7, h10, h21, h24, h30, h41, h51, h85, h101⟩
      simp [hb]

theorem chip8Table_defined (w : Nat) (h0 : w ≠ 0) (hu : ¬ undefinedPattern w) :
    chip8Table w ∈ caseLabels.drop 2 := by
  unfold chip8Table
  rw [if_neg h0, if_neg hu]
  by_cases hcls : w = 0x00E0
  · rw [if_pos hcls]; simp [caseLabels]
  · rw [if_neg hcls]
    by_cases hret : w = 0x00EE
    · rw [if_pos hret]; simp [caseLabels]
    · rw [if_neg hret]
      split
      all_goals try split
      all_goals simp [caseLabels]

theorem caseLabels_drop_two :
    ∀ t ∈ caseLabels.drop 2, t ≠ ROM_END ∧ t ≠ ILLEGAL ∧ -2 < t ∧ t ≤ 34 := by
  decide

theorem chip8Table_mem_caseLabels (w : Nat) : chip8Table w ∈ caseLabels := by
  by_cases h0 : w = 0
  · subst h0; simp [chip8Table, caseLabels]
  · by_cases hu : undefinedPattern w
    · unfold chip8Table; rw [if_neg h0, if_pos hu]; simp [caseLabels]
    · exact List.mem_of_mem_drop (chip8Table_defined w h0 hu)

theorem chip8Table_eq_ROM_END (w : Nat) : chip8Table w = ROM_END ↔ w = 0 := by
  by_cases h0 : w = 0
  · subst h0; simp [chip8Table]
  · by_cases hu : undefinedPattern w
    · unfold chip8Table; rw [if_neg h0, if_pos hu]; simp [h0, ROM_END, ILLEGAL]
    · have h := (caseLabels_drop_two _ (chip8Table_defined w h0 hu)).1
      simp [h, h0]

theorem chip8Table_eq_ILLEGAL (w : Nat) : chip8Table w = ILLEGAL ↔ undefinedPattern w := by
  by_cases h0 : w = 0
  · subst h0; simp [chip8Table, ROM_END, ILLEGAL]
  · by_cases hu : undefinedPattern w
    · unfold chip8Table; rw [if_neg h0, if_pos hu]; simp [hu]
    · have h := (caseLabels_drop_two _ (chip8Table_defined w h0 hu)).2.1
      simp [h, hu]

/-- C1. The decoder is a total function of the 16-bit word that equals the CHIP-8 table
`chip8Table`; it returns `ROM_END` exactly at the word `0x0000` and `ILLEGAL` exactly at
the undefined bit patterns `undefinedPattern`. -/
theorem decodeInstruction_table (w : Nat) (hw : w < 65536) :
    decodeInstruction w = chip8Table w ∧
    (decodeInstruction w = ROM_END ↔ w = 0x0000) ∧
    (decodeInstruction w = ILLEGAL ↔ undefinedPattern w) := by
  rw [decodeInstruction_eq_chip8Table w hw]
  exact ⟨rfl, chip8Table_eq_ROM_END w, chip8Table_eq_ILLEGAL w⟩

theorem decodeInstruction_table_witness :
    (0x8AB4 : Nat) < 65536 ∧
    decodeInstruction 0x8AB4 = chip8Table 0x8AB4 ∧
    (decodeInstruction 0x8AB4 = ROM_END ↔ (0x8AB4 : Nat) = 0x0000) ∧
    (decodeInstruction 0x8AB4 = ILLEGAL ↔ undefinedPattern 0x8AB4) :=
  ⟨by decide, decodeInstruction_table 0x8AB4 (by decide)⟩

/-! ## The return value of `runInstruction` -/

theorem runInstruction_of_caseLabel (op : opcode_t) (hop : op ∈ caseLabels) (w : Nat)
    (h : Host) (s : Machine) :
    ((op = ILLEGAL ∨ op = ROM_END ∨ op = SYS) ∧ runInstruction op w h s = (-1, s)) ∨
    (¬ (op = ILLEGAL ∨ op = ROM_END ∨ op = SYS) ∧ (runInstruction op w h s).1 = 0) := by
  simp only [caseLabels, List.mem_cons, List.mem_singleton, List.not_mem_nil, or_false] at hop
  rcases hop with rfl | rfl | rfl | rfl | rfl | rfl | rfl | rfl | rfl | rfl | rfl | rfl | rfl |
    rfl | rfl | rfl | rfl | rfl | rfl | rfl | rfl | rfl | rfl | rfl | rfl | rfl | rfl | rfl |
    rfl | rfl | rfl | rfl | rfl | rfl | rfl | rfl | rfl
  all_goals simp [runInstruction, ROM_END, ILLEGAL, SYS, CLS, RET, JPADR, CALL, SEIMM, SNE,
    SEREG, LDIMM, ADDIMM, LDI, OR, AND, XOR, ADDREG, SUB, SHR, SUBN, SHL, SNEREG, LD, JPREG,
    RND, DRW, SKP, SKNP, LDREGDT, LDK, LDDTVX, LDSTVX, ADDIVX, LDFVX, LDBVX, LDIVX, LDVXI]

/-- C2. For every 16-bit word and every machine state, `runInstruction` applied to the
decoded tag returns -1 (Halt) exactly when the tag is `ILLEGAL`, `ROM_END` or `SYS`, and 0
otherwise; a halting call leaves the whole machine unchanged; and the tag always has a
`case` label, so the `default:` branch is not the one that runs. -/
theorem runInstruction_halt_iff (w : Nat) (hw : w < 65536) (h : Host) (s : Machine) :
    ((runInstruction (decodeInstruction w) w h s).1 = -1 ↔
      (decodeInstruction w = ILLEGAL ∨ decodeInstruction w = ROM_END ∨
        decodeInstruction w = SYS)) ∧
    (¬ (decodeInstruction w = ILLEGAL ∨ decodeInstruction w = ROM_END ∨
        decodeInstruction w = SYS) → (runInstruction (decodeInstruction w) w h s).1 = 0) ∧
    ((runInstruction (decodeInstruction w) w h s).1 = -1 →
      (runInstruction (decodeInstruction w) w h s).2 = s) ∧
    decodeInstruction w ∈ caseLabels := by
  have hmem : decodeInstruction w ∈ caseLabels := by
    rw [decodeInstruction_eq_chip8Table w hw]; exact chip8Table_mem_caseLabels w
  rcases runInstruction_of_caseLabel _ hmem w h s with ⟨hh, hr⟩ | ⟨hh, hr⟩
  · rw [hr]; exact ⟨by simp [hh], fun hn => absurd hh hn, fun _ => rfl, hmem⟩
  · rw [hr]; exact ⟨by simp [hh], fun _ => rfl, fun h1 => by simp at h1, hmem⟩

theorem runInstruction_halt_iff_witness :
    (0x0123 : Nat) < 65536 ∧
    (((runInstruction (decodeInstruction 0x0123) 0x0123 idleHost (regMachine 1 2)).1 = -1 ↔
      (decodeInstruction 0x0123 = ILLEGAL ∨ decodeInstruction 0x0123 = ROM_END ∨
        decodeInstruction 0x0123 = SYS)) ∧
    (¬ (decodeInstruction 0x0123 = ILLEGAL ∨ decodeInstruction 0x0123 = ROM_END ∨
        decodeInstruction 0x0123 = SYS) →
      (runInstruction (decodeInstruction 0x0123) 0x0123 idleHost (regMachine 1 2)).1 = 0) ∧
    ((runInstruction (decodeInstruction 0x0123) 0x0123 idleHost (regMachine 1 2)).1 = -1 →
      (runInstruction (decodeInstruction 0x0123) 0x0123 idleHost (regMachine 1 2)).2 =
        regMachine 1 2) ∧
    decodeInstruction 0x0123 ∈ caseLabels) :=
  ⟨by decide, runInstruction_halt_iff 0x0123 (by decide) idleHost (regMachine 1 2)⟩

/-! ## Register arithmetic -/

theorem regMachine_wf (a b : Nat) (ha : a < 256) (hb : b < 256) : (regMachine a b).wf := by
  refine ⟨?_, ?_, ?_, ?_, ?_, ?_, ?_, ?_, ?_⟩ <;> simp [regMachine, Machine.init]
  intro k
  split_ifs <;> omega

theorem encXYN_lt (g x y n : Nat) (hg : g < 16) (hx : x < 16) (hy : y < 16) (hn : n < 16) :
    encXYN g x y n < 65536 := by
  unfold encXYN; omega

theorem encXYN_x (g x y n : Nat) (hx : x < 16) (hy : y < 16) (hn : n < 16) :
    (encXYN g x y n &&& 0x0F00) >>> 8 = x := by
  rw [and_0F00_shift]; unfold encXYN; omega

theorem encXYN_y (g x y n : Nat) (hy : y < 16) (hn : n < 16) :
    (encXYN g x y n &&& 0x00F0) >>> 4 = y := by
  rw [and_00F0_shift]; unfold encXYN; omega

theorem encXYN_n (g x y n : Nat) (hn : n < 16) :
    encXYN g x y n &&& 0x000F = n := by
  rw [and_000F]; unfold encXYN; omega

theorem encXKK_lt (g x kk : Nat) (hg : g < 16) (hx : x < 16) (hk : kk < 256) :
    encXKK g x kk < 65536 := by
  unfold encXKK; omega

theorem encXKK_x (g x kk : Nat) (hx : x < 16) (hk : kk < 256) :
    (encXKK g x kk &&& 0x0F00) >>> 8 = x := by
  rw [and_0F00_shift]; unfold encXKK; omega

theorem encXKK_kk (g x kk : Nat) (hk : kk < 256) :
    encXKK g x kk &&& 0x00FF = kk := by
  rw [and_00FF]; unfold encXKK; omega

theorem decodeInstruction_8xy4 (x y : Nat) (hx : x < 16) (hy : y < 16) :
    decodeInstruction (encXYN 8 x y 4) = ADDREG := by
  have hw : encXYN 8 x y 4 < 65536 := encXYN_lt 8 x y 4 (by omega) hx hy (by omega)
  rw [decodeInstruction_eq_chip8Table _ hw]
  have h1 : encXYN 8 x y 4 / 4096 = 8 := by unfold encXYN; omega
  have h2 : encXYN 8 x y 4 % 16 = 4 := by unfold encXYN; omega
  have h3 : encXYN 8 x y 4 ≠ 0 := by unfold encXYN; omega
  have h4 : encXYN 8 x y 4 ≠ 224 := by unfold encXYN; omega
  have h5 : encXYN 8 x y 4 ≠ 238 := by unfold encXYN; omega
  simp [chip8Table, undefinedPattern, h1, h2, h3, h4, h5]

theorem decodeInstruction_8xy5 (x y : Nat) (hx : x < 16) (hy : y < 16) :
    decodeInstruction (encXYN 8 x y 5) = SUB := by
  have hw : encXYN 8 x y 5 < 65536 := encXYN_lt 8 x y 5 (by omega) hx hy (by omega)
  rw [decodeInstruction_eq_chip8Table _ hw]
  have h1 : encXYN 8 x y 5 / 4096 = 8 := by unfold encXYN; omega
  have h2 : encXYN 8 x y 5 % 16 = 5 := by unfold encXYN; omega
  have h3 : encXYN 8 x y 5 ≠ 0 := by unfold encXYN; omega
  have h4 : encXYN 8 x y 5 ≠ 224 := by unfold encXYN; omega
  have h5 : encXYN 8 x y 5 ≠ 238 := by unfold encXYN; omega
  simp [chip8Table, undefinedPattern, h1, h2, h3, h4, h5]

theorem decodeInstruction_8xy6 (x y : Nat) (hx : x < 16) (hy : y < 16) :
    decodeInstruction (encXYN 8 x y 6) = SHR := by
  have hw : encXYN 8 x y 6 < 65536 := encXYN_lt 8 x y 6 (by omega) hx hy (by omega)
  rw [decodeInstruction_eq_chip8Table _ hw]
  have h1 : encXYN 8 x y 6 / 4096 = 8 := by unfold encXYN; omega
  have h2 : encXYN 8 x y 6 % 16 = 6 := by unfold encXYN; omega
  have h3 : encXYN 8 x y 6 ≠ 0 := by unfold encXYN; omega
  have h4 : encXYN 8 x y 6 ≠ 224 := by unfold encXYN; omega
  have h5 : encXYN 8 x y 6 ≠ 238 := by unfold encXYN; omega
  simp [chip8Table, undefinedPattern, h1, h2, h3, h4, h5]

theorem decodeInstruction_8xy7 (x y : Nat) (hx : x < 16) (hy : y < 16) :
    decodeInstruction (encXYN 8 x y 7) = SUBN := by
  have hw : encXYN 8 x y 7 < 65536 := encXYN_lt 8 x y 7 (by omega) hx hy (by omega)
  rw [decodeInstruction_eq_chip8Table _ hw]
  have h1 : encXYN 8 x y 7 / 4096 = 8 := by unfold encXYN; omega
  have h2 : encXYN 8 x y 7 % 16 = 7 := by unfold encXYN; omega
  have h3 : encXYN 8 x y 7 ≠ 0 := by unfold encXYN; omega
  have h4 : encXYN 8 x y 7 ≠ 224 := by unfold encXYN; omega
  have h5 : encXYN 8 x y 7 ≠ 238 := by unfold encXYN; omega
  simp [chip8Table, undefinedPattern, h1, h2, h3, h4, h5]

theorem decodeInstruction_8xyE (x y : Nat) (hx : x < 16) (hy : y < 16) :
    decodeInstruction (encXYN 8 x y 0xE) = SHL := by
  have hw : encXYN 8 x y 0xE < 65536 := encXYN_lt 8 x y 0xE (by omega) hx hy (by omega)
  rw [decodeInstruction_eq_chip8Table _ hw]
  have h1 : encXYN 8 x y 0xE / 4096 = 8 := by unfold encXYN; omega
  have h2 : encXYN 8 x y 0xE % 16 = 14 := by unfold encXYN; omega
  have h3 : encXYN 8 x y 0xE ≠ 0 := by unfold encXYN; omega
  have h4 : encXYN 8 x y 0xE ≠ 224 := by unfold encXYN; omega
  have h5 : encXYN 8 x y 0xE ≠ 238 := by unfold encXYN; omega
  simp [chip8Table, undefinedPattern, h1, h2, h3, h4, h5]

theorem decodeInstruction_3xkk (x kk : Nat) (hx : x < 16) (hk : kk < 256) :
    decodeInstruction (encXKK 3 x kk) = SEIMM := by
  have hw : encXKK 3 x kk < 65536 := encXKK_lt 3 x kk (by omega) hx hk
  rw [decodeInstruction_eq_chip8Table _ hw]
  have h1 : encXKK 3 x kk / 4096 = 3 := by unfold encXKK; omega
  have h3 : encXKK 3 x kk ≠ 0 := by unfold encXKK; omega
  have h4 : encXKK 3 x kk ≠ 224 := by unfold encXKK; omega
  have h5 : encXKK 3 x kk ≠ 238 := by unfold encXKK; omega
  simp [chip8Table, undefinedPattern, h1, h3, h4, h5]

theorem decodeInstruction_4xkk (x kk : Nat) (hx : x < 16) (hk : kk < 256) :
    decodeInstruction (encXKK 4 x kk) = SNE := by
  have hw : encXKK 4 x kk < 65536 := encXKK_lt 4 x kk (by omega) hx hk
  rw [decodeInstruction_eq_chip8Table _ hw]
  have h1 : encXKK 4 x kk / 4096 = 4 := by unfold encXKK; omega
  have h3 : encXKK 4 x kk ≠ 0 := by unfold encXKK; omega
  have h4 : encXKK 4 x kk ≠ 224 := by unfold encXKK; omega
  have h5 : encXKK 4 x kk ≠ 238 := by unfold encXKK; omega
  simp [chip8Table, undefinedPattern, h1, h3, h4, h5]

theorem decodeInstruction_Dxyn (x y n : Nat) (hx : x < 16) (hy : y < 16) (hn : n < 16) :
    decodeInstruction (encXYN 0xD x y n) = DRW := by
  have hw : encXYN 0xD x y n < 65536 := encXYN_lt 0xD x y n (by omega) hx hy hn
  rw [decodeInstruction_eq_chip8Table _ hw]
  have h1 : encXYN 0xD x y n / 4096 = 13 := by unfold encXYN; omega
  have h3 : encXYN 0xD x y n ≠ 0 := by unfold encXYN; omega
  have h4 : encXYN 0xD x y n ≠ 224 := by unfold encXYN; omega
  have h5 : encXYN 0xD x y n ≠ 238 := by unfold encXYN; omega
  simp [chip8Table, undefinedPattern, h1, h3, h4, h5]

theorem u32_of_small (a : Nat) (h : a < 4294967296) : u32 (a : Int) = a := by
  unfold u32; omega

theorem u32_sub (a b : Nat) (ha : a < 256) (hb : b < 256) :
    u32 ((a : Int) - b) = if b ≤ a then a - b else 4294967296 + a - b := by
  unfold u32; split_ifs <;> omega

theorem u8_sub (a b : Nat) (ha : a < 256) (hb : b < 256) :
    u8 ((a : Int) - b) = if b ≤ a then a - b else 256 + a - b := by
  unfold u8; split_ifs <;> omega

theorem u8_int (a b : Nat) :
    ((u8 ((a : Int) - b) : Nat) : Int) = ((a : Int) - b) % 256 := by
  unfold u8; omega

theorem u16_add_small (a b : Nat) (h : a + b < 65536) : u16 ((a : Int) + (b : Int)) = a + b := by
  unfold u16; omega

/-- C6. For every state and every `8xy4` instruction: VF afterwards is 1 if the sum of the old
Vx and Vy exceeds 0xFF and 0 otherwise (for all x and y, also x = y and y = F); when x is
not F, Vx afterwards is the sum modulo 256; no register other than Vx and VF changes. -/
theorem ADDREG_carry (s : Machine) (hs : s.wf) (h : Host) (x y : Nat) (hx : x < 16)
    (hy : y < 16) :
    ((runInstruction (decodeInstruction (encXYN 8 x y 4)) (encXYN 8 x y 4) h s).2.v 0xF =
      if s.v x + s.v y > 0xFF then 1 else 0) ∧
    (x ≠ 0xF →
      (runInstruction (decodeInstruction (encXYN 8 x y 4)) (encXYN 8 x y 4) h s).2.v x =
        (s.v x + s.v y) % 256) ∧
    (∀ k, k ≠ x → k ≠ 0xF →
      (runInstruction (decodeInstruction (encXYN 8 x y 4)) (encXYN 8 x y 4) h s).2.v k =
        s.v k) := by
  obtain ⟨-, -, -, hv, -⟩ := hs
  have hvx := hv x
  have hvy := hv y
  rw [decodeInstruction_8xy4 x y hx hy]
  have hrun : (runInstruction ADDREG (encXYN 8 x y 4) h s).2.v =
      Function.update (Function.update s.v x ((s.v x + s.v y) % 256)) 0xF
        (if s.v x + s.v y > 0xFF then 1 else 0) := by
    simp only [runInstruction, ADDREG, ROM_END, ILLEGAL, SYS, CLS, RET, JPADR, CALL, SEIMM, SNE,
      SEREG, LDIMM, ADDIMM, LDI, OR, AND, XOR]
    simp only [encXYN_x 8 x y 4 hx hy (by omega), encXYN_y 8 x y 4 hy (by omega)]
    have hsum : u32 ((s.v x : Int) + (s.v y : Int)) = s.v x + s.v y := by unfold u32; omega
    simp only [hsum, and_00FF, and_FF00]
    have hflag : (s.v x + s.v y) / 256 % 256 * 256 = 0 ↔ ¬ (s.v x + s.v y > 0xFF) := by omega
    by_cases hc : s.v x + s.v y > 0xFF
    · have hne : ¬ ((s.v x + s.v y) / 256 % 256 * 256 = 0) := by omega
      simp [hc, hne]
    · have he : (s.v x + s.v y) / 256 % 256 * 256 = 0 := by omega
      simp [hc, he]
  rw [hrun]
  refine ⟨by simp, fun hxF => ?_, fun k hkx hkF => ?_⟩
  · rw [Function.update_noteq hxF, Function.update_same]
  · rw [Function.update_noteq hkF, Function.update_noteq hkx]

theorem ADDREG_carry_witness :
    (runInstruction (decodeInstruction (encXYN 8 1 2 4)) (encXYN 8 1 2 4) idleHost
      (regMachine 0xFF 0x01)).2.v 1 = 0x00 ∧
    (runInstruction (decodeInstruction (encXYN 8 1 2 4)) (encXYN 8 1 2 4) idleHost
      (regMachine 0xFF 0x01)).2.v 0xF = 1 := by
  have hw := ADDREG_carry (regMachine 0xFF 0x01) (regMachine_wf _ _ (by decide) (by decide))
    idleHost 1 2 (by decide) (by decide)
  refine ⟨?_, ?_⟩
  · rw [hw.2.1 (by decide)]; simp [regMachine]
  · rw [hw.1]; simp [regMachine]

/-- C7 (amended). For every state and every `8xy5` instruction with x not F: Vx afterwards
is the difference of the old Vx and Vy modulo 256, and VF afterwards is 1 if and only if the
old Vx is greater than or equal to the old Vy (no borrow), and 0 otherwise; so VF = 1 when
Vx = Vy. -/
theorem SUB_no_borrow (s : Machine) (hs : s.wf) (h : Host) (x y : Nat) (hx : x < 16)
    (hy : y < 16) (hxF : x ≠ 0xF) :
    (((runInstruction (decodeInstruction (encXYN 8 x y 5)) (encXYN 8 x y 5) h s).2.v x : Nat)
        : Int) = ((s.v x : Int) - (s.v y : Int)) % 256 ∧
    ((runInstruction (decodeInstruction (encXYN 8 x y 5)) (encXYN 8 x y 5) h s).2.v 0xF =
      if s.v x ≥ s.v y then 1 else 0) := by
  obtain ⟨-, -, -, hv, -⟩ := hs
  have hvx := hv x
  have hvy := hv y
  rw [decodeInstruction_8xy5 x y hx hy]
  have hrun : (runInstruction SUB (encXYN 8 x y 5) h s).2.v =
      Function.update (Function.update s.v x (u32 ((s.v x : Int) - (s.v y : Int)) % 256)) 0xF
        (if u32 ((s.v x : Int) - (s.v y : Int)) / 256 % 256 * 256 = 0 then 1 else 0) := by
    simp only [runInstruction, SUB, ADDREG, ROM_END, ILLEGAL, SYS, CLS, RET, JPADR, CALL, SEIMM,
      SNE, SEREG, LDIMM, ADDIMM, LDI, OR, AND, XOR]
    simp only [encXYN_x 8 x y 5 hx hy (by omega), encXYN_y 8 x y 5 hy (by omega)]
    simp only [and_00FF, and_FF00]
    simp
  rw [hrun, Function.update_noteq hxF, Function.update_same, Function.update_same,
    u32_sub _ _ hvx hvy]
  constructor
  · split_ifs <;> omega
  · by_cases hc : s.v y ≤ s.v x
    · have he : (s.v x - s.v y) / 256 % 256 * 256 = 0 := by omega
      simp [hc, he]
    · have hne : ¬ ((4294967296 + s.v x - s.v y) / 256 % 256 * 256 = 0) := by omega
      simp [hc, hne]

theorem SUB_no_borrow_witness :
    (runInstruction (decodeInstruction (encXYN 8 1 2 5)) (encXYN 8 1 2 5) idleHost
      (regMachine 0x05 0x03)).2.v 1 = 0x02 ∧
    (runInstruction (decodeInstruction (encXYN 8 1 2 5)) (encXYN 8 1 2 5) idleHost
      (regMachine 0x05 0x03)).2.v 0xF = 1 := by
  have hw := SUB_no_borrow (regMachine 0x05 0x03) (regMachine_wf _ _ (by decide) (by decide))
    idleHost 1 2 (by decide) (by decide) (by decide)
  refine ⟨?_, ?_⟩
  · have h1 := hw.1
    have hv1 : (regMachine 0x05 0x03).v 1 = 5 := rfl
    have hv2 : (regMachine 0x05 0x03).v 2 = 3 := rfl
    rw [hv1, hv2] at h1
    omega
  · rw [hw.2]; simp [regMachine]

/-- C7 (counterexample). With Vx = Vy = 5 the instruction `8125` sets VF to 1, although the
old Vx is not strictly greater than the old Vy. -/
theorem SUB_flag_at_equal :
    (runInstruction (decodeInstruction 0x8125) 0x8125 idleHost (regMachine 5 5)).2.v 0xF = 1 ∧
    ¬ ((regMachine 5 5).v 1 > (regMachine 5 5).v 2) := by
  decide

/-- C8 (failing input). With Vx = 0 and Vy = 5 the instruction `8127` leaves Vx = 5 and
VF = 0, although the old Vy is strictly greater than the old Vx: the flag is computed from
Vx after the subtraction has overwritten it. -/
theorem SUBN_flag_reads_new_Vx :
    (regMachine 0 5).v 2 > (regMachine 0 5).v 1 ∧
    (runInstruction (decodeInstruction 0x8127) 0x8127 idleHost (regMachine 0 5)).2.v 1 = 5 ∧
    (runInstruction (decodeInstruction 0x8127) 0x8127 idleHost (regMachine 0 5)).2.v 0xF = 0 := by
  decide

theorem runInstruction_SHR_eq (w : Nat) (h : Host) (s : Machine) :
    runInstruction SHR w h s =
      ((0 : Int), Machine.mk s.ram s.frameBuffer s.stack
        (Function.update (Function.update s.v ((w &&& 0x0F00) >>> 8)
          (s.v ((w &&& 0x0F00) >>> 8) >>> 1)) 0xF (s.v ((w &&& 0x0F00) >>> 8) &&& 0x01))
        s.SP s.DT s.ST s.I s.PC) := rfl

theorem runInstruction_SHL_eq (w : Nat) (h : Host) (s : Machine) :
    runInstruction SHL w h s =
      ((0 : Int), Machine.mk s.ram s.frameBuffer s.stack
        (Function.update (Function.update s.v ((w &&& 0x0F00) >>> 8)
          (u8 ((s.v ((w &&& 0x0F00) >>> 8) <<< 1 : Nat)))) 0xF
          (if s.v ((w &&& 0x0F00) >>> 8) &&& 0x80 = 0 then 0 else 1))
        s.SP s.DT s.ST s.I s.PC) := rfl

/-- C9. For every state and x not F: after `8xy6` VF is bit 0 of the old Vx and Vx is the old
Vx divided by 2; after `8xyE` VF is bit 7 of the old Vx and Vx is twice the old Vx modulo 256.
In both cases no register other than Vx and VF changes and the outcome does not depend on
the y field (Vy is not read). -/
theorem SHR_SHL_flag (s : Machine) (hs : s.wf) (h : Host) (x y : Nat) (hx : x < 16)
    (hy : y < 16) (hxF : x ≠ 0xF) :
    ((runInstruction (decodeInstruction (encXYN 8 x y 6)) (encXYN 8 x y 6) h s).2.v 0xF =
        s.v x % 2 ∧
      (runInstruction (decodeInstruction (encXYN 8 x y 6)) (encXYN 8 x y 6) h s).2.v x =
        s.v x / 2 ∧
      (∀ k, k ≠ x → k ≠ 0xF →
        (runInstruction (decodeInstruction (encXYN 8 x y 6)) (encXYN 8 x y 6) h s).2.v k =
          s.v k) ∧
      runInstruction (decodeInstruction (encXYN 8 x y 6)) (encXYN 8 x y 6) h s =
        runInstruction (decodeInstruction (encXYN 8 x 0 6)) (encXYN 8 x 0 6) h s) ∧
    ((runInstruction (decodeInstruction (encXYN 8 x y 0xE)) (encXYN 8 x y 0xE) h s).2.v 0xF =
        s.v x / 128 % 2 ∧
      (runInstruction (decodeInstruction (encXYN 8 x y 0xE)) (encXYN 8 x y 0xE) h s).2.v x =
        (s.v x * 2) % 256 ∧
      (∀ k, k ≠ x → k ≠ 0xF →
        (runInstruction (decodeInstruction (encXYN 8 x y 0xE)) (encXYN 8 x y 0xE) h s).2.v k =
          s.v k) ∧
      runInstruction (decodeInstruction (encXYN 8 x y 0xE)) (encXYN 8 x y 0xE) h s =
        runInstruction (decodeInstruction (encXYN 8 x 0 0xE)) (encXYN 8 x 0 0xE) h s) := by
  obtain ⟨-, -, -, hv, -⟩ := hs
  have hvx := hv x
  have hX : ∀ y n, y < 16 → n < 16 → (encXYN 8 x y n &&& 0x0F00) >>> 8 = x :=
    fun y n hy hn => encXYN_x 8 x y n hx hy hn
  have h8 : u8 ((s.v x <<< 1 : Nat) : Int) = s.v x * 2 % 256 := by
    rw [Nat.shiftLeft_eq]; unfold u8; omega
  have hf : (if s.v x &&& 0x80 = 0 then 0 else 1) = s.v x / 128 % 2 := by
    rw [and_80]; split_ifs <;> omega
  have h1 : s.v x >>> 1 = s.v x / 2 := by rw [Nat.shiftRight_eq_div_pow, pow_one]
  rw [decodeInstruction_8xy6 x y hx hy, decodeInstruction_8xy6 x 0 hx (by omega),
    decodeInstruction_8xyE x y hx hy, decodeInstruction_8xyE x 0 hx (by omega),
    runInstruction_SHR_eq, runInstruction_SHR_eq, runInstruction_SHL_eq, runInstruction_SHL_eq,
    hX y 6 hy (by omega), hX 0 6 (by omega) (by omega), hX y 0xE hy (by omega),
    hX 0 0xE (by omega) (by omega), h8, hf, h1, Nat.and_one_is_mod]
  refine ⟨⟨by simp, ?_, fun k hkx hkF => ?_, rfl⟩, ⟨by simp, ?_, fun k hkx hkF => ?_, rfl⟩⟩
  · show Function.update (Function.update s.v x (s.v x / 2)) 0xF (s.v x % 2) x = _
    rw [Function.update_noteq hxF, Function.update_same]
  · show Function.update (Function.update s.v x (s.v x / 2)) 0xF (s.v x % 2) k = _
    rw [Function.update_noteq hkF, Function.update_noteq hkx]
  · show Function.update (Function.update s.v x (s.v x * 2 % 256)) 0xF (s.v x / 128 % 2) x = _
    rw [Function.update_noteq hxF, Function.update_same]
  · show Function.update (Function.update s.v x (s.v x * 2 % 256)) 0xF (s.v x / 128 % 2) k = _
    rw [Function.update_noteq hkF, Function.update_noteq hkx]

theorem SHR_SHL_flag_witness :
    (runInstruction (decodeInstruction (encXYN 8 1 2 6)) (encXYN 8 1 2 6) idleHost
      (regMachine 0x81 0x33)).2.v 0xF = 1 ∧
    (runInstruction (decodeInstruction (encXYN 8 1 2 6)) (encXYN 8 1 2 6) idleHost
      (regMachine 0x81 0x33)).2.v 1 = 0x40 ∧
    (runInstruction (decodeInstruction (encXYN 8 1 2 0xE)) (encXYN 8 1 2 0xE) idleHost
      (regMachine 0x81 0x33)).2.v 0xF = 1 ∧
    (runInstruction (decodeInstruction (encXYN 8 1 2 0xE)) (encXYN 8 1 2 0xE) idleHost
      (regMachine 0x81 0x33)).2.v 1 = 0x02 ∧
    (runInstruction (decodeInstruction (encXYN 8 1 2 0xE)) (encXYN 8 1 2 0xE) idleHost
      (regMachine 0x81 0x33)).2.v 2 = 0x33 := by
  have hw := SHR_SHL_flag (regMachine 0x81 0x33) (regMachine_wf _ _ (by decide) (by decide))
    idleHost 1 2 (by decide) (by decide) (by decide)
  obtain ⟨⟨a1, a2, -, -⟩, ⟨b1, b2, b3, -⟩⟩ := hw
  have hv1 : (regMachine 0x81 0x33).v 1 = 0x81 := rfl
  have hv2 : (regMachine 0x81 0x33).v 2 = 0x33 := rfl
  rw [hv1] at a1 a2 b1 b2
  exact ⟨a1, a2, b1, b2, (b3 2 (by decide) (by decide)).trans hv2⟩

theorem fetch_eq (a b : Nat) (ha : a < 256) (hb : b < 256) :
    u16 ((a <<< 8 ||| b : Nat) : Int) = a * 256 + b := by
  have hor : a <<< 8 ||| b = 2 ^ 8 * a + b := by
    rw [Nat.shiftLeft_eq, Nat.mul_comm]
    exact (Nat.mul_add_lt_is_or (by omega) a).symm
  rw [hor]; unfold u16; omega

theorem runInstruction_SEIMM_eq (w : Nat) (h : Host) (s : Machine) :
    runInstruction SEIMM w h s =
      ((0 : Int), if s.v ((w &&& 0x0F00) >>> 8) = w &&& 0x00FF then
        Machine.mk s.ram s.frameBuffer s.stack s.v s.SP s.DT s.ST s.I (u16 (s.PC + 2))
        else s) := rfl

theorem runInstruction_SNE_eq (w : Nat) (h : Host) (s : Machine) :
    runInstruction SNE w h s =
      ((0 : Int), if s.v ((w &&& 0x0F00) >>> 8) ≠ w &&& 0x00FF then
        Machine.mk s.ram s.frameBuffer s.stack s.v s.SP s.DT s.ST s.I (u16 (s.PC + 2))
        else s) := rfl

/-- C10. For every state whose PC points at a `3xkk` instruction (PC + 1 < 4096), one
`clockCycle` advances PC by 4 if Vx = kk and by 2 otherwise; for a `4xkk` instruction it
advances PC by 4 if Vx differs from kk and by 2 otherwise; nothing but PC changes. -/
theorem clockCycle_skip_immediate (s : Machine) (h : Host) (x kk : Nat) (hx : x < 16)
    (hk : kk < 256) (hpc : s.PC + 1 < 4096) (hlo : s.ram (s.PC + 1) = kk) :
    (s.ram s.PC = 0x30 + x →
      clockCycle h s = Machine.mk s.ram s.frameBuffer s.stack s.v s.SP s.DT s.ST s.I
        (s.PC + if s.v x = kk then 4 else 2)) ∧
    (s.ram s.PC = 0x40 + x →
      clockCycle h s = Machine.mk s.ram s.frameBuffer s.stack s.v s.SP s.DT s.ST s.I
        (s.PC + if s.v x ≠ kk then 4 else 2)) := by
  have h2 : u16 ((s.PC : Int) + 2) = s.PC + 2 := by unfold u16; omega
  have h4 : u16 (((s.PC + 2 : Nat) : Int) + 2) = s.PC + 4 := by unfold u16; omega
  constructor
  · intro hhi
    have hf : u16 ((s.ram s.PC <<< 8 ||| s.ram (s.PC + 1) : Nat) : Int) = encXKK 3 x kk := by
      rw [fetch_eq _ _ (by omega) (by omega), hhi, hlo]; unfold encXKK; omega
    unfold clockCycle
    simp only [hf, decodeInstruction_3xkk x kk hx hk, runInstruction_SEIMM_eq,
      encXKK_x 3 x kk hx hk, encXKK_kk 3 x kk hk]
    by_cases hc : s.v x = kk
    · simp only [if_pos hc, h2, h4]
    · simp only [if_neg hc, h2]
  · intro hhi
    have hf : u16 ((s.ram s.PC <<< 8 ||| s.ram (s.PC + 1) : Nat) : Int) = encXKK 4 x kk := by
      rw [fetch_eq _ _ (by omega) (by omega), hhi, hlo]; unfold encXKK; omega
    unfold clockCycle
    simp only [hf, decodeInstruction_4xkk x kk hx hk, runInstruction_SNE_eq,
      encXKK_x 4 x kk hx hk, encXKK_kk 4 x kk hk]
    by_cases hc : s.v x = kk
    · simp only [hc, ne_eq, not_true_eq_false, if_false, h2]
    · simp only [hc, ne_eq, not_false_eq_true, if_true, h2, h4]

theorem clockCycle_skip_immediate_witness :
    (clockCycle idleHost (skipMachine 0x31)).PC = 0x204 ∧
    (clockCycle idleHost (skipMachine 0x41)).PC = 0x202 := by
  have h3 := (clockCycle_skip_immediate (skipMachine 0x31) idleHost 1 0x10 (by decide)
    (by decide) (by decide) (by decide)).1 (by decide)
  have h4 := (clockCycle_skip_immediate (skipMachine 0x41) idleHost 1 0x10 (by decide)
    (by decide) (by decide) (by decide)).2 (by decide)
  rw [h3, h4]
  exact ⟨by decide, by decide⟩

/-! ## The sprite loops -/

theorem drawPixel_frameBuffer (sp : Nat → Nat) (x y i j : Nat) (s : Machine) (c r : Nat) :
    (drawPixel sp x y i j s).frameBuffer c r =
      if x + j = c ∧ y + i = r ∧ c < SCREEN_WIDTH ∧ r < SCREEN_HEIGHT then
        s.frameBuffer c r ^^^ ((sp i >>> (7 - j)) &&& 1)
      else s.frameBuffer c r := by
  unfold drawPixel
  by_cases hclip : x + j ≥ SCREEN_WIDTH ∨ y + i ≥ SCREEN_HEIGHT
  · rw [if_pos hclip, if_neg]
    rintro ⟨rfl, rfl, h1, h2⟩
    omega
  · rw [if_neg hclip]
    have hfb : ∀ t : Machine, t.frameBuffer = s.frameBuffer →
        (set2 t.frameBuffer (x + j) (y + i)
          (t.frameBuffer (x + j) (y + i) ^^^ ((sp i >>> (7 - j)) &&& 1))) c r =
        if x + j = c ∧ y + i = r ∧ c < SCREEN_WIDTH ∧ r < SCREEN_HEIGHT then
          s.frameBuffer c r ^^^ ((sp i >>> (7 - j)) &&& 1)
        else s.frameBuffer c r := by
      intro t ht
      rw [ht]
      unfold set2
      by_cases hc : c = x + j
      · subst hc
        rw [Function.update_same]
        by_cases hr : r = y + i
        · subst hr
          rw [Function.update_same, if_pos]
          exact ⟨rfl, rfl, by omega, by omega⟩
        · rw [Function.update_noteq hr, if_neg]
          rintro ⟨-, h, -⟩; exact hr h.symm
      · rw [Function.update_noteq hc, if_neg]
        rintro ⟨h, -⟩; exact hc h.symm
    by_cases hcol : ((sp i >>> (7 - j)) &&& 1) ≠ 0 ∧ s.frameBuffer (x + j) (y + i) ≠ 0
    · rw [if_pos hcol]; exact hfb _ rfl
    · rw [if_neg hcol]; exact hfb _ rfl

theorem drawPixel_v (sp : Nat → Nat) (x y i j : Nat) (s : Machine) (k : Nat) :
    (drawPixel sp x y i j s).v k =
      if k = 0xF ∧ x + j < SCREEN_WIDTH ∧ y + i < SCREEN_HEIGHT ∧
          ((sp i >>> (7 - j)) &&& 1) ≠ 0 ∧ s.frameBuffer (x + j) (y + i) ≠ 0 then 1
      else s.v k := by
  unfold drawPixel
  by_cases hclip : x + j ≥ SCREEN_WIDTH ∨ y + i ≥ SCREEN_HEIGHT
  · rw [if_pos hclip, if_neg]
    rintro ⟨-, h1, h2, -⟩
    omega
  · rw [if_neg hclip]
    have h1 : x + j < SCREEN_WIDTH := by omega
    have h2 : y + i < SCREEN_HEIGHT := by omega
    by_cases hcol : ((sp i >>> (7 - j)) &&& 1) ≠ 0 ∧ s.frameBuffer (x + j) (y + i) ≠ 0
    · rw [if_pos hcol]
      show Function.update s.v 0xF 1 k = _
      by_cases hk : k = 0xF
      · subst hk
        rw [Function.update_same, if_pos ⟨rfl, h1, h2, hcol⟩]
      · rw [Function.update_noteq hk, if_neg]
        rintro ⟨h, -⟩; exact hk h
    · rw [if_neg hcol]
      show s.v k = _
      rw [if_neg]
      rintro ⟨-, -, -, h⟩; exact hcol h

theorem drawPixel_rest (sp : Nat → Nat) (x y i j : Nat) (s : Machine) :
    (drawPixel sp x y i j s).ram = s.ram ∧ (drawPixel sp x y i j s).stack = s.stack ∧
    (drawPixel sp x y i j s).SP = s.SP ∧ (drawPixel sp x y i j s).DT = s.DT ∧
    (drawPixel sp x y i j s).ST = s.ST ∧ (drawPixel sp x y i j s).I = s.I ∧
    (drawPixel sp x y i j s).PC = s.PC := by
  unfold drawPixel
  split_ifs <;> exact ⟨rfl, rfl, rfl, rfl, rfl, rfl, rfl⟩

theorem drawPixels_nil (sp : Nat → Nat) (x y : Nat) (s : Machine) :
    drawPixels sp x y [] s = s := rfl

theorem drawPixels_cons (sp : Nat → Nat) (x y : Nat) (p : Nat × Nat) (ps : List (Nat × Nat))
    (s : Machine) :
    drawPixels sp x y (p :: ps) s = drawPixels sp x y ps (drawPixel sp x y p.1 p.2 s) := rfl

theorem drawPixels_rest (sp : Nat → Nat) (x y : Nat) (ps : List (Nat × Nat)) (s : Machine) :
    (drawPixels sp x y ps s).ram = s.ram ∧ (drawPixels sp x y ps s).stack = s.stack ∧
    (drawPixels sp x y ps s).SP = s.SP ∧ (drawPixels sp x y ps s).DT = s.DT ∧
    (drawPixels sp x y ps s).ST = s.ST ∧ (drawPixels sp x y ps s).I = s.I ∧
    (drawPixels sp x y ps s).PC = s.PC := by
  induction ps generalizing s with
  | nil => exact ⟨rfl, rfl, rfl, rfl, rfl, rfl, rfl⟩
  | cons p ps ih =>
    rw [drawPixels_cons]
    obtain ⟨a1, a2, a3, a4, a5, a6, a7⟩ := ih (drawPixel sp x y p.1 p.2 s)
    obtain ⟨b1, b2, b3, b4, b5, b6, b7⟩ := drawPixel_rest sp x y p.1 p.2 s
    exact ⟨a1.trans b1, a2.trans b2, a3.trans b3, a4.trans b4, a5.trans b5, a6.trans b6,
      a7.trans b7⟩

/-- The framebuffer after the loop body has run over a duplicate-free list of pixels: a
cell of the grid that is the target of one of the pixels is XORed with that sprite bit,
every other cell keeps its value. -/
theorem drawPixels_frameBuffer (sp : Nat → Nat) (x y : Nat) (ps : List (Nat × Nat))
    (hnd : ps.Nodup) (s : Machine) (c r : Nat) :
    (drawPixels sp x y ps s).frameBuffer c r =
      if (r - y, c - x) ∈ ps ∧ x ≤ c ∧ y ≤ r ∧ c < SCREEN_WIDTH ∧ r < SCREEN_HEIGHT then
        s.frameBuffer c r ^^^ ((sp (r - y) >>> (7 - (c - x))) &&& 1)
      else s.frameBuffer c r := by
  induction ps generalizing s with
  | nil => simp [drawPixels_nil]
  | cons p ps ih =>
    obtain ⟨hp, hnd'⟩ := List.nodup_cons.mp hnd
    rw [drawPixels_cons, ih hnd']
    by_cases hhit : x + p.2 = c ∧ y + p.1 = r
    · obtain ⟨hc, hr⟩ := hhit
      have hpe : (r - y, c - x) = p := by
        apply Prod.ext
        · show r - y = p.1
          omega
        · show c - x = p.2
          omega
      have hnot : (r - y, c - x) ∉ ps := by rw [hpe]; exact hp
      rw [if_neg (fun h => hnot h.1), drawPixel_frameBuffer]
      by_cases hin : c < SCREEN_WIDTH ∧ r < SCREEN_HEIGHT
      · rw [if_pos ⟨hc, hr, hin.1, hin.2⟩, if_pos ⟨by rw [hpe]; exact List.mem_cons_self _ _,
          by omega, by omega, hin.1, hin.2⟩]
        have e1 : r - y = p.1 := by omega
        have e2 : c - x = p.2 := by omega
        rw [e1, e2]
      · rw [if_neg (fun h => hin ⟨h.2.2.1, h.2.2.2⟩), if_neg (fun h => hin ⟨h.2.2.2.1, h.2.2.2.2⟩)]
    · have hA : (drawPixel sp x y p.1 p.2 s).frameBuffer c r = s.frameBuffer c r := by
        rw [drawPixel_frameBuffer, if_neg (fun h => hhit ⟨h.1, h.2.1⟩)]
      rw [hA]
      by_cases hmem : (r - y, c - x) ∈ ps ∧ x ≤ c ∧ y ≤ r ∧ c < SCREEN_WIDTH ∧ r < SCREEN_HEIGHT
      · rw [if_pos hmem, if_pos ⟨List.mem_cons_of_mem _ hmem.1, hmem.2⟩]
      · rw [if_neg hmem, if_neg]
        rintro ⟨hm, hx, hy, hcw, hrh⟩
        rcases List.mem_cons.mp hm with he | hm'
        · apply hhit
          have e1 : r - y = p.1 := congrArg Prod.fst he
          have e2 : c - x = p.2 := congrArg Prod.snd he
          constructor <;> omega
        · exact hmem ⟨hm', hx, hy, hcw, hrh⟩

/-- Registers other than VF are not written by the loop body. -/
theorem drawPixels_v_other (sp : Nat → Nat) (x y : Nat) (ps : List (Nat × Nat)) (s : Machine)
    (k : Nat) (hk : k ≠ 0xF) : (drawPixels sp x y ps s).v k = s.v k := by
  induction ps generalizing s with
  | nil => rfl
  | cons p ps ih =>
    rw [drawPixels_cons, ih, drawPixel_v, if_neg]
    rintro ⟨h, -⟩; exact hk h

/-- The collision flag after the loop body has run over a duplicate-free list of pixels:
it is 1 as soon as one pixel of the list is on the grid, has its sprite bit set and meets a
cell that was non-zero in the starting framebuffer; otherwise it keeps its value. -/
theorem drawPixels_vF (sp : Nat → Nat) (x y : Nat) (ps : List (Nat × Nat))
    (hnd : ps.Nodup) (s : Machine) :
    ((∃ p ∈ ps, x + p.2 < SCREEN_WIDTH ∧ y + p.1 < SCREEN_HEIGHT ∧
        ((sp p.1 >>> (7 - p.2)) &&& 1) ≠ 0 ∧ s.frameBuffer (x + p.2) (y + p.1) ≠ 0) →
      (drawPixels sp x y ps s).v 0xF = 1) ∧
    ((¬ ∃ p ∈ ps, x + p.2 < SCREEN_WIDTH ∧ y + p.1 < SCREEN_HEIGHT ∧
        ((sp p.1 >>> (7 - p.2)) &&& 1) ≠ 0 ∧ s.frameBuffer (x + p.2) (y + p.1) ≠ 0) →
      (drawPixels sp x y ps s).v 0xF = s.v 0xF) := by
  induction ps generalizing s with
  | nil =>
    constructor
    · rintro ⟨p, hp, -⟩; cases hp
    · intro _; rfl
  | cons p ps ih =>
    obtain ⟨hp, hnd'⟩ := List.nodup_cons.mp hnd
    rw [drawPixels_cons]
    obtain ⟨ih1, ih2⟩ := ih hnd' (drawPixel sp x y p.1 p.2 s)
    -- cells of the later pixels are not touched by the first one
    have hsame : ∀ q ∈ ps, (drawPixel sp x y p.1 p.2 s).frameBuffer (x + q.2) (y + q.1) =
        s.frameBuffer (x + q.2) (y + q.1) := by
      intro q hq
      rw [drawPixel_frameBuffer, if_neg]
      rintro ⟨h1, h2, -⟩
      have : q = p := by
        apply Prod.ext <;> omega
      exact hp (this ▸ hq)
    have hex : (∃ q ∈ ps, x + q.2 < SCREEN_WIDTH ∧ y + q.1 < SCREEN_HEIGHT ∧
          ((sp q.1 >>> (7 - q.2)) &&& 1) ≠ 0 ∧
          (drawPixel sp x y p.1 p.2 s).frameBuffer (x + q.2) (y + q.1) ≠ 0) ↔
        (∃ q ∈ ps, x + q.2 < SCREEN_WIDTH ∧ y + q.1 < SCREEN_HEIGHT ∧
          ((sp q.1 >>> (7 - q.2)) &&& 1) ≠ 0 ∧ s.frameBuffer (x + q.2) (y + q.1) ≠ 0) := by
      constructor
      · rintro ⟨q, hq, a, b, c, d⟩
        exact ⟨q, hq, a, b, c, by rw [← hsame q hq]; exact d⟩
      · rintro ⟨q, hq, a, b, c, d⟩
        exact ⟨q, hq, a, b, c, by rw [hsame q hq]; exact d⟩
    rw [hex] at ih1 ih2
    by_cases hrest : ∃ q ∈ ps, x + q.2 < SCREEN_WIDTH ∧ y + q.1 < SCREEN_HEIGHT ∧
          ((sp q.1 >>> (7 - q.2)) &&& 1) ≠ 0 ∧ s.frameBuffer (x + q.2) (y + q.1) ≠ 0
    · constructor
      · intro _; exact ih1 hrest
      · intro hno
        obtain ⟨q, hq, hq'⟩ := hrest
        exact absurd ⟨q, List.mem_cons_of_mem _ hq, hq'⟩ hno
    · rw [ih2 hrest, drawPixel_v]
      constructor
      · rintro ⟨q, hq, hq'⟩
        rcases List.mem_cons.mp hq with rfl | hq
        · rw [if_pos ⟨rfl, hq'⟩]
        · exact absurd ⟨q, hq, hq'⟩ hrest
      · intro hno
        rw [if_neg]
        rintro ⟨-, hq'⟩
        exact hno ⟨p, List.mem_cons_self _ _, hq'⟩

theorem mem_pixels (n : Nat) (p : Nat × Nat) : p ∈ pixels n ↔ p.1 < n ∧ p.2 < 8 := by
  unfold pixels
  simp only [List.mem_flatMap, List.mem_range, List.mem_map]
  constructor
  · rintro ⟨i, hi, j, hj, rfl⟩
    exact ⟨hi, hj⟩
  · rintro ⟨h1, h2⟩
    exact ⟨p.1, h1, p.2, h2, rfl⟩

theorem nodup_pixels (n : Nat) : (pixels n).Nodup := by
  unfold pixels
  rw [List.nodup_flatMap]
  constructor
  · intro i _
    exact (List.nodup_range 8).map (fun a b hab => congrArg Prod.snd hab)
  · apply (List.nodup_range n).imp
    intro i i2 hne
    rw [Function.onFun, List.disjoint_left]
    intro p hp hp2
    simp only [List.mem_map] at hp hp2
    obtain ⟨j, -, rfl⟩ := hp
    obtain ⟨j2, -, h2⟩ := hp2
    exact hne (congrArg Prod.fst h2).symm

theorem foldl_flatMap_eq {α β γ : Type} (f : γ → β → γ) (g : α → List β) (l : List α) (s : γ) :
    (l.flatMap g).foldl f s = l.foldl (fun st a => (g a).foldl f st) s := by
  induction l generalizing s with
  | nil => rfl
  | cons a l ih => rw [List.flatMap_cons, List.foldl_append, ih, List.foldl_cons]

theorem drawPixel_congr (sp sp2 : Nat → Nat) (x y i j : Nat) (s : Machine) (h : sp i = sp2 i) :
    drawPixel sp x y i j s = drawPixel sp2 x y i j s := by
  unfold drawPixel
  rw [h]

/-- The copy loop of `drawSpriteToFramebuffer` fills `sprite[i]` with `ram[I + i]`. -/
theorem sprite_copy (ram : Nat → Nat) (I n : Nat) (init : Nat → Nat) (i : Nat) (hi : i < n) :
    (List.range n).foldl (fun sprite i => Function.update sprite i (ram (I + i))) init i =
      ram (I + i) := by
  induction n with
  | zero => omega
  | succ n ih =>
    rw [List.range_succ, List.foldl_append, List.foldl_cons, List.foldl_nil]
    by_cases hin : i = n
    · subst hin; rw [Function.update_same]
    · rw [Function.update_noteq hin]; exact ih (by omega)

/-- The two nested loops of `drawSpriteToFramebuffer` are the loop body run over `pixels`,
with `sprite[i] = ram[I + i]`, from the state in which VF has been cleared. -/
theorem drawSpriteToFramebuffer_eq (w : Nat) (s : Machine) :
    drawSpriteToFramebuffer w s =
      drawPixels (fun i => s.ram (s.I + i))
        (Function.update s.v 0xF 0 ((w &&& 0x0F00) >>> 8))
        (Function.update s.v 0xF 0 ((w &&& 0x00F0) >>> 4))
        (pixels (w &&& 0x000F))
        (Machine.mk s.ram s.frameBuffer s.stack (Function.update s.v 0xF 0) s.SP s.DT s.ST
          s.I s.PC) := by
  unfold drawSpriteToFramebuffer drawPixels pixels
  rw [foldl_flatMap_eq]
  simp only [List.foldl_map]
  apply List.foldl_ext
  intro st i hi
  apply List.foldl_ext
  intro st2 j _
  apply drawPixel_congr
  exact sprite_copy s.ram s.I _ _ i (List.mem_range.mp hi)

theorem shiftRight_and_one (m k : Nat) : (m >>> k) &&& 1 = (Nat.testBit m k).toNat := by
  rw [Nat.and_one_is_mod, Nat.testBit_to_div_mod, Nat.shiftRight_eq_div_pow]
  rcases Nat.mod_two_eq_zero_or_one (m / 2 ^ k) with h | h <;> simp [h]

/-- The framebuffer written by `drawSpriteToFramebuffer`, for any register fields: the
origin `(x0, y0)` is read from the registers after VF has been cleared. -/
theorem drawSpriteToFramebuffer_frameBuffer (w : Nat) (s : Machine) (c r : Nat) :
    (drawSpriteToFramebuffer w s).frameBuffer c r =
      if c < SCREEN_WIDTH ∧ r < SCREEN_HEIGHT ∧
          Function.update s.v 0xF 0 ((w &&& 0x0F00) >>> 8) ≤ c ∧
          c < Function.update s.v 0xF 0 ((w &&& 0x0F00) >>> 8) + 8 ∧
          Function.update s.v 0xF 0 ((w &&& 0x00F0) >>> 4) ≤ r ∧
          r < Function.update s.v 0xF 0 ((w &&& 0x00F0) >>> 4) + (w &&& 0x000F) then
        s.frameBuffer c r ^^^
          (Nat.testBit (s.ram (s.I + (r - Function.update s.v 0xF 0 ((w &&& 0x00F0) >>> 4))))
            (7 - (c - Function.update s.v 0xF 0 ((w &&& 0x0F00) >>> 8)))).toNat
      else s.frameBuffer c r := by
  rw [drawSpriteToFramebuffer_eq, drawPixels_frameBuffer _ _ _ _ (nodup_pixels _)]
  simp only [mem_pixels, shiftRight_and_one]
  generalize Function.update s.v 0xF 0 ((w &&& 0x0F00) >>> 8) = x0
  generalize Function.update s.v 0xF 0 ((w &&& 0x00F0) >>> 4) = y0
  generalize w &&& 0x000F = n
  by_cases hc : c < SCREEN_WIDTH ∧ r < SCREEN_HEIGHT ∧ x0 ≤ c ∧ c < x0 + 8 ∧ y0 ≤ r ∧ r < y0 + n
  · rw [if_pos hc, if_pos]
    obtain ⟨h1, h2, h3, h4, h5, h6⟩ := hc
    exact ⟨⟨by show r - y0 < n; omega, by show c - x0 < 8; omega⟩, h3, h5, h1, h2⟩
  · rw [if_neg hc, if_neg]
    rintro ⟨⟨h1, h2⟩, h3, h4, h5, h6⟩
    apply hc
    have h1' : r - y0 < n := h1
    have h2' : c - x0 < 8 := h2
    exact ⟨h5, h6, h3, by omega, h4, by omega⟩

theorem drawSpriteToFramebuffer_v_other (w : Nat) (s : Machine) (k : Nat) (hk : k ≠ 0xF) :
    (drawSpriteToFramebuffer w s).v k = s.v k := by
  rw [drawSpriteToFramebuffer_eq, drawPixels_v_other _ _ _ _ _ _ hk]
  exact Function.update_noteq hk _ _

theorem drawSpriteToFramebuffer_rest (w : Nat) (s : Machine) :
    (drawSpriteToFramebuffer w s).ram = s.ram ∧ (drawSpriteToFramebuffer w s).stack = s.stack ∧
    (drawSpriteToFramebuffer w s).SP = s.SP ∧ (drawSpriteToFramebuffer w s).DT = s.DT ∧
    (drawSpriteToFramebuffer w s).ST = s.ST ∧ (drawSpriteToFramebuffer w s).I = s.I ∧
    (drawSpriteToFramebuffer w s).PC = s.PC := by
  rw [drawSpriteToFramebuffer_eq]
  exact drawPixels_rest _ _ _ _ _

/-- The collision flag written by `drawSpriteToFramebuffer`, for any register fields. -/
theorem drawSpriteToFramebuffer_vF (w : Nat) (s : Machine) :
    ((∃ i j, i < (w &&& 0x000F) ∧ j < 8 ∧
        Function.update s.v 0xF 0 ((w &&& 0x0F00) >>> 8) + j < SCREEN_WIDTH ∧
        Function.update s.v 0xF 0 ((w &&& 0x00F0) >>> 4) + i < SCREEN_HEIGHT ∧
        Nat.testBit (s.ram (s.I + i)) (7 - j) = true ∧
        s.frameBuffer (Function.update s.v 0xF 0 ((w &&& 0x0F00) >>> 8) + j)
          (Function.update s.v 0xF 0 ((w &&& 0x00F0) >>> 4) + i) ≠ 0) →
      (drawSpriteToFramebuffer w s).v 0xF = 1) ∧
    ((¬ ∃ i j, i < (w &&& 0x000F) ∧ j < 8 ∧
        Function.update s.v 0xF 0 ((w &&& 0x0F00) >>> 8) + j < SCREEN_WIDTH ∧
        Function.update s.v 0xF 0 ((w &&& 0x00F0) >>> 4) + i < SCREEN_HEIGHT ∧
        Nat.testBit (s.ram (s.I + i)) (7 - j) = true ∧
        s.frameBuffer (Function.update s.v 0xF 0 ((w &&& 0x0F00) >>> 8) + j)
          (Function.update s.v 0xF 0 ((w &&& 0x00F0) >>> 4) + i) ≠ 0) →
      (drawSpriteToFramebuffer w s).v 0xF = 0) := by
  rw [drawSpriteToFramebuffer_eq]
  generalize Function.update s.v 0xF 0 ((w &&& 0x0F00) >>> 8) = x0
  generalize Function.update s.v 0xF 0 ((w &&& 0x00F0) >>> 4) = y0
  generalize w &&& 0x000F = n
  obtain ⟨h1, h2⟩ := drawPixels_vF (fun i => s.ram (s.I + i)) x0 y0 (pixels n) (nodup_pixels n)
    (Machine.mk s.ram s.frameBuffer s.stack (Function.update s.v 0xF 0) s.SP s.DT s.ST s.I s.PC)
  have hbit : ∀ m k, ((m >>> k) &&& 1 ≠ 0) ↔ Nat.testBit m k = true := by
    intro m k
    rw [shiftRight_and_one]
    cases Nat.testBit m k <;> simp
  constructor
  · rintro ⟨i, j, hi, hj, hx, hy, hb, hf⟩
    exact h1 ⟨(i, j), (mem_pixels n (i, j)).mpr ⟨hi, hj⟩, hx, hy, (hbit _ _).mpr hb, hf⟩
  · intro hno
    rw [h2]
    · show Function.update s.v 0xF 0 0xF = 0
      rw [Function.update_same]
    · rintro ⟨p, hp, hx, hy, hb, hf⟩
      obtain ⟨hi, hj⟩ := (mem_pixels n p).mp hp
      exact hno ⟨p.1, p.2, hi, hj, hx, hy, (hbit _ _).mp hb, hf⟩

theorem runInstruction_DRW_eq (w : Nat) (h : Host) (s : Machine) :
    runInstruction DRW w h s = ((0 : Int), drawSpriteToFramebuffer w s) := rfl

/-- C3. For every state, every `Dxyn` instruction with register fields x, y other than F and
I + n within memory: after the draw, a cell (c, r) of the 64x32 grid with Vx <= c < Vx + 8 and
Vy <= r < Vy + n holds its old value XOR bit 7 - (c - Vx) of memory[I + (r - Vy)]; every other
cell is unchanged. Sprite pixels at a column >= 64 or a row >= 32 are dropped, not wrapped. -/
theorem DRW_frameBuffer (s : Machine) (h : Host) (x y n : Nat) (hx : x < 16) (hy : y < 16)
    (hn : n < 16) (hxF : x ≠ 0xF) (hyF : y ≠ 0xF) (_hI : s.I + n ≤ RAM_SIZE) (c r : Nat) :
    (runInstruction (decodeInstruction (encXYN 0xD x y n)) (encXYN 0xD x y n) h s).2.frameBuffer
        c r =
      if c < SCREEN_WIDTH ∧ r < SCREEN_HEIGHT ∧ s.v x ≤ c ∧ c < s.v x + 8 ∧
          s.v y ≤ r ∧ r < s.v y + n then
        s.frameBuffer c r ^^^
          (Nat.testBit (s.ram (s.I + (r - s.v y))) (7 - (c - s.v x))).toNat
      else s.frameBuffer c r := by
  rw [decodeInstruction_Dxyn x y n hx hy hn, runInstruction_DRW_eq]
  show (drawSpriteToFramebuffer (encXYN 0xD x y n) s).frameBuffer c r = _
  rw [drawSpriteToFramebuffer_frameBuffer, encXYN_x 0xD x y n hx hy hn,
    encXYN_y 0xD x y n hy hn, encXYN_n 0xD x y n hn, Function.update_noteq hxF,
    Function.update_noteq hyF]

theorem DRW_frameBuffer_witness :
    (runInstruction (decodeInstruction (encXYN 0xD 1 2 5)) (encXYN 0xD 1 2 5) idleHost
      (spriteMachine 0)).2.frameBuffer 63 4 = 1 ∧
    (runInstruction (decodeInstruction (encXYN 0xD 1 2 5)) (encXYN 0xD 1 2 5) idleHost
      (spriteMachine 0)).2.frameBuffer 0 0 = 0 ∧
    (runInstruction (decodeInstruction (encXYN 0xD 1 2 5)) (encXYN 0xD 1 2 5) idleHost
      (spriteMachine 0)).2.frameBuffer 3 1 = 0 := by
  have hw := DRW_frameBuffer (spriteMachine 0) idleHost 1 2 5 (by decide) (by decide)
    (by decide) (by decide) (by decide) (by decide)
  rw [hw 63 4, hw 0 0, hw 3 1]
  decide

/-- C4. For every state and every `Dxyn` instruction (x, y other than F, I + n within
memory), VF after the draw is 1 if and only if there are a row i < n and a column j < 8 with
Vx + j < 64 and Vy + i < 32 such that bit 7 - j of memory[I + i] is 1 and the framebuffer cell
(Vx + j, Vy + i) was non-zero before the draw; otherwise VF is 0. -/
theorem DRW_collision (s : Machine) (h : Host) (x y n : Nat) (hx : x < 16) (hy : y < 16)
    (hn : n < 16) (hxF : x ≠ 0xF) (hyF : y ≠ 0xF) (_hI : s.I + n ≤ RAM_SIZE) :
    ((runInstruction (decodeInstruction (encXYN 0xD x y n)) (encXYN 0xD x y n) h s).2.v 0xF = 1 ↔
      ∃ i j, i < n ∧ j < 8 ∧ s.v x + j < SCREEN_WIDTH ∧ s.v y + i < SCREEN_HEIGHT ∧
        Nat.testBit (s.ram (s.I + i)) (7 - j) = true ∧
        s.frameBuffer (s.v x + j) (s.v y + i) ≠ 0) ∧
    ((runInstruction (decodeInstruction (encXYN 0xD x y n)) (encXYN 0xD x y n) h s).2.v 0xF = 0 ↔
      ¬ ∃ i j, i < n ∧ j < 8 ∧ s.v x + j < SCREEN_WIDTH ∧ s.v y + i < SCREEN_HEIGHT ∧
        Nat.testBit (s.ram (s.I + i)) (7 - j) = true ∧
        s.frameBuffer (s.v x + j) (s.v y + i) ≠ 0) := by
  rw [decodeInstruction_Dxyn x y n hx hy hn, runInstruction_DRW_eq]
  show ((drawSpriteToFramebuffer (encXYN 0xD x y n) s).v 0xF = 1 ↔ _) ∧
    ((drawSpriteToFramebuffer (encXYN 0xD x y n) s).v 0xF = 0 ↔ _)
  have hv := drawSpriteToFramebuffer_vF (encXYN 0xD x y n) s
  rw [encXYN_x 0xD x y n hx hy hn, encXYN_y 0xD x y n hy hn, encXYN_n 0xD x y n hn,
    Function.update_noteq hxF, Function.update_noteq hyF] at hv
  obtain ⟨h1, h0⟩ := hv
  constructor
  · constructor
    · intro hone
      by_contra hno
      rw [h0 hno] at hone
      exact absurd hone (by decide)
    · exact h1
  · constructor
    · intro hzero hex
      rw [h1 hex] at hzero
      exact absurd hzero (by decide)
    · exact h0

theorem DRW_collision_witness :
    (runInstruction (decodeInstruction (encXYN 0xD 1 2 5)) (encXYN 0xD 1 2 5) idleHost
      (spriteMachine 1)).2.v 0xF = 1 ∧
    (runInstruction (decodeInstruction (encXYN 0xD 1 2 5)) (encXYN 0xD 1 2 5) idleHost
      (spriteMachine 0)).2.v 0xF = 0 := by
  have h1 := DRW_collision (spriteMachine 1) idleHost 1 2 5 (by decide) (by decide)
    (by decide) (by decide) (by decide) (by decide)
  have h0 := DRW_collision (spriteMachine 0) idleHost 1 2 5 (by decide) (by decide)
    (by decide) (by decide) (by decide) (by decide)
  refine ⟨h1.1.mpr ⟨0, 0, by decide⟩, h0.2.mpr ?_⟩
  rintro ⟨i, j, -, -, -, -, -, hf⟩
  exact hf rfl

/-- C5. For every state and every `Dxyn` instruction (any x, y in 0..F, any height n, I + n
within memory), executing the same draw instruction twice in a row restores the whole
framebuffer to its contents before the first draw. -/
theorem DRW_twice (s : Machine) (h1 h2 : Host) (x y n : Nat) (hx : x < 16) (hy : y < 16)
    (hn : n < 16) (_hI : s.I + n ≤ RAM_SIZE) :
    (runInstruction (decodeInstruction (encXYN 0xD x y n)) (encXYN 0xD x y n) h2
      (runInstruction (decodeInstruction (encXYN 0xD x y n)) (encXYN 0xD x y n) h1
        s).2).2.frameBuffer = s.frameBuffer := by
  rw [decodeInstruction_Dxyn x y n hx hy hn, runInstruction_DRW_eq, runInstruction_DRW_eq]
  show (drawSpriteToFramebuffer (encXYN 0xD x y n)
    (drawSpriteToFramebuffer (encXYN 0xD x y n) s)).frameBuffer = s.frameBuffer
  have hv : Function.update (drawSpriteToFramebuffer (encXYN 0xD x y n) s).v 0xF 0 =
      Function.update s.v 0xF 0 := by
    funext k
    by_cases hk : k = 0xF
    · subst hk; rw [Function.update_same, Function.update_same]
    · rw [Function.update_noteq hk, Function.update_noteq hk,
        drawSpriteToFramebuffer_v_other _ _ _ hk]
  obtain ⟨hram, -, -, -, -, hI, -⟩ := drawSpriteToFramebuffer_rest (encXYN 0xD x y n) s
  funext c r
  rw [drawSpriteToFramebuffer_frameBuffer, hv, hram, hI, drawSpriteToFramebuffer_frameBuffer]
  split_ifs
  · rw [Nat.xor_cancel_right]
  · rfl


theorem DRW_twice_witness :
    (spriteMachine 1).I + 5 ≤ RAM_SIZE ∧
    (runInstruction (decodeInstruction (encXYN 0xD 1 0xF 5)) (encXYN 0xD 1 0xF 5) idleHost
      (runInstruction (decodeInstruction (encXYN 0xD 1 0xF 5)) (encXYN 0xD 1 0xF 5) idleHost
        (spriteMachine 1)).2).2.frameBuffer = (spriteMachine 1).frameBuffer :=
  ⟨by decide, DRW_twice (spriteMachine 1) idleHost idleHost 1 0xF 5 (by decide) (by decide)
    (by decide) (by decide)⟩

/-! ## Jumps, calls and returns -/

theorem clockCycle_eq (h : Host) (s : Machine) :
    clockCycle h s =
      Machine.mk (runInstruction (decodeInstruction (fetch s)) (fetch s) h s).2.ram
        (runInstruction (decodeInstruction (fetch s)) (fetch s) h s).2.frameBuffer
        (runInstruction (decodeInstruction (fetch s)) (fetch s) h s).2.stack
        (runInstruction (decodeInstruction (fetch s)) (fetch s) h s).2.v
        (runInstruction (decodeInstruction (fetch s)) (fetch s) h s).2.SP
        (runInstruction (decodeInstruction (fetch s)) (fetch s) h s).2.DT
        (runInstruction (decodeInstruction (fetch s)) (fetch s) h s).2.ST
        (runInstruction (decodeInstruction (fetch s)) (fetch s) h s).2.I
        (u16 ((runInstruction (decodeInstruction (fetch s)) (fetch s) h s).2.PC + 2)) := rfl

theorem fetch_encNNN (s : Machine) (g nnn : Nat) (hg : g < 16) (hn : nnn < 4096)
    (hhi : s.ram s.PC = g * 16 + nnn / 256) (hlo : s.ram (s.PC + 1) = nnn % 256) :
    fetch s = encNNN g nnn := by
  unfold fetch
  rw [fetch_eq _ _ (by omega) (by omega), hhi, hlo]
  unfold encNNN; omega

theorem encNNN_nnn (g nnn : Nat) (hn : nnn < 4096) : encNNN g nnn &&& 0x0FFF = nnn := by
  rw [and_0FFF]; unfold encNNN; omega

theorem decodeInstruction_1nnn (nnn : Nat) (hn : nnn < 4096) :
    decodeInstruction (encNNN 1 nnn) = JPADR := by
  have hw : encNNN 1 nnn < 65536 := by unfold encNNN; omega
  rw [decodeInstruction_eq_chip8Table _ hw]
  have h1 : encNNN 1 nnn / 4096 = 1 := by unfold encNNN; omega
  have h3 : encNNN 1 nnn ≠ 0 := by unfold encNNN; omega
  have h4 : encNNN 1 nnn ≠ 224 := by unfold encNNN; omega
  have h5 : encNNN 1 nnn ≠ 238 := by unfold encNNN; omega
  simp [chip8Table, undefinedPattern, h1, h3, h4, h5]

theorem decodeInstruction_2nnn (nnn : Nat) (hn : nnn < 4096) :
    decodeInstruction (encNNN 2 nnn) = CALL := by
  have hw : encNNN 2 nnn < 65536 := by unfold encNNN; omega
  rw [decodeInstruction_eq_chip8Table _ hw]
  have h1 : encNNN 2 nnn / 4096 = 2 := by unfold encNNN; omega
  have h3 : encNNN 2 nnn ≠ 0 := by unfold encNNN; omega
  have h4 : encNNN 2 nnn ≠ 224 := by unfold encNNN; omega
  have h5 : encNNN 2 nnn ≠ 238 := by unfold encNNN; omega
  simp [chip8Table, undefinedPattern, h1, h3, h4, h5]

theorem decodeInstruction_Bnnn (nnn : Nat) (hn : nnn < 4096) :
    decodeInstruction (encNNN 0xB nnn) = JPREG := by
  have hw : encNNN 0xB nnn < 65536 := by unfold encNNN; omega
  rw [decodeInstruction_eq_chip8Table _ hw]
  have h1 : encNNN 0xB nnn / 4096 = 11 := by unfold encNNN; omega
  have h3 : encNNN 0xB nnn ≠ 0 := by unfold encNNN; omega
  have h4 : encNNN 0xB nnn ≠ 224 := by unfold encNNN; omega
  have h5 : encNNN 0xB nnn ≠ 238 := by unfold encNNN; omega
  simp [chip8Table, undefinedPattern, h1, h3, h4, h5]

theorem decodeInstruction_00EE : decodeInstruction 0x00EE = RET := by decide

theorem runInstruction_JPADR_eq (w : Nat) (h : Host) (s : Machine) :
    runInstruction JPADR w h s =
      ((0 : Int), Machine.mk s.ram s.frameBuffer s.stack s.v s.SP s.DT s.ST s.I
        (u16 ((w &&& 0x0FFF : Nat) - 2))) := rfl

theorem runInstruction_JPREG_eq (w : Nat) (h : Host) (s : Machine) :
    runInstruction JPREG w h s =
      ((0 : Int), Machine.mk s.ram s.frameBuffer s.stack s.v s.SP s.DT s.ST s.I
        (u16 ((w &&& 0x0FFF : Nat) + s.v 0x0 - 2))) := rfl

theorem runInstruction_CALL_eq (w : Nat) (h : Host) (s : Machine) :
    runInstruction CALL w h s =
      ((0 : Int), Machine.mk s.ram s.frameBuffer
        (Function.update s.stack (u8 (s.SP + 1)) s.PC) s.v (u8 (s.SP + 1)) s.DT s.ST s.I
        (u16 ((w &&& 0x0FFF : Nat) - 2))) := rfl

theorem runInstruction_RET_eq (w : Nat) (h : Host) (s : Machine) :
    runInstruction RET w h s =
      ((0 : Int), Machine.mk s.ram s.frameBuffer s.stack s.v (u8 (s.SP - 1)) s.DT s.ST s.I
        (s.stack s.SP)) := rfl

theorem u16_jump (t : Nat) : u16 ((u16 ((t : Int) - 2) : Nat) + 2) = t % 65536 := by
  unfold u16; omega

/-- C11. For every state whose PC points at a jump instruction, after one full `clockCycle`
PC is exactly the jump target: nnn for `1nnn`, for every nnn in 0x000..0xFFF (also nnn = 0
and nnn = 1, where the pre-adjustment nnn - 2 wraps in 16 bits), and (nnn + V0) mod 2^16
for `Bnnn`. -/
theorem clockCycle_jump (s : Machine) (h : Host) (nnn : Nat) (hn : nnn < 4096)
    (hlo : s.ram (s.PC + 1) = nnn % 256) :
    (s.ram s.PC = 0x10 + nnn / 256 → (clockCycle h s).PC = nnn) ∧
    (s.ram s.PC = 0xB0 + nnn / 256 → (clockCycle h s).PC = (nnn + s.v 0) % 65536) := by
  constructor
  · intro hhi
    rw [clockCycle_eq, fetch_encNNN s 1 nnn (by omega) hn (by omega) hlo,
      decodeInstruction_1nnn nnn hn,
      runInstruction_JPADR_eq, encNNN_nnn 1 nnn hn]
    show u16 ((u16 ((nnn : Int) - 2) : Nat) + 2) = nnn
    rw [u16_jump]; omega
  · intro hhi
    rw [clockCycle_eq, fetch_encNNN s 0xB nnn (by omega) hn (by omega) hlo,
      decodeInstruction_Bnnn nnn hn, runInstruction_JPREG_eq, encNNN_nnn 0xB nnn hn]
    show u16 ((u16 ((nnn : Int) + (s.v 0 : Int) - 2) : Nat) + 2) = (nnn + s.v 0) % 65536
    have := u16_jump (nnn + s.v 0)
    rw [Nat.cast_add] at this
    exact this

theorem clockCycle_jump_witness :
    (clockCycle idleHost (romMachine [0x10, 0x00])).PC = 0x000 ∧
    (clockCycle idleHost (romMachine [0x10, 0x01])).PC = 0x001 ∧
    (clockCycle idleHost (romMachine [0xB2, 0xFF])).PC = 0x2FF := by
  have h0 := (clockCycle_jump (romMachine [0x10, 0x00]) idleHost 0x000 (by decide)
    (by decide)).1 (by decide)
  have h1 := (clockCycle_jump (romMachine [0x10, 0x01]) idleHost 0x001 (by decide)
    (by decide)).1 (by decide)
  have hB := (clockCycle_jump (romMachine [0xB2, 0xFF]) idleHost 0x2FF (by decide)
    (by decide)).2 (by decide)
  exact ⟨h0, h1, hB⟩

/-- C12. CALL followed by RET is a round trip: for every state with SP < 15 whose PC = p
points at `2nnn` (inside memory) and whose memory at nnn holds `00EE`, the first `clockCycle`
leaves PC = nnn and SP = old SP + 1 with the pushed entry equal to p, and the second leaves
PC = p + 2 and SP at its original value, with registers, I, timers, memory and framebuffer
unchanged. -/
theorem CALL_RET_roundtrip (s : Machine) (h1 h2 : Host) (nnn : Nat) (hn : nnn < 4096)
    (hsp : s.SP < 15) (hp : s.PC + 1 < RAM_SIZE)
    (hhi : s.ram s.PC = 0x20 + nnn / 256) (hlo : s.ram (s.PC + 1) = nnn % 256)
    (hr0 : s.ram nnn = 0x00) (hr1 : s.ram (nnn + 1) = 0xEE) :
    (clockCycle h1 s).PC = nnn ∧ (clockCycle h1 s).SP = s.SP + 1 ∧
    (clockCycle h1 s).stack (s.SP + 1) = s.PC ∧
    (clockCycle h2 (clockCycle h1 s)).PC = s.PC + 2 ∧
    (clockCycle h2 (clockCycle h1 s)).SP = s.SP ∧
    (clockCycle h2 (clockCycle h1 s)).v = s.v ∧
    (clockCycle h2 (clockCycle h1 s)).I = s.I ∧
    (clockCycle h2 (clockCycle h1 s)).DT = s.DT ∧
    (clockCycle h2 (clockCycle h1 s)).ST = s.ST ∧
    (clockCycle h2 (clockCycle h1 s)).ram = s.ram ∧
    (clockCycle h2 (clockCycle h1 s)).frameBuffer = s.frameBuffer := by
  have hsp1 : u8 ((s.SP : Int) + 1) = s.SP + 1 := by unfold u8; omega
  have hpc1 : u16 ((u16 ((nnn : Int) - 2) : Nat) + 2) = nnn := by rw [u16_jump]; omega
  have hcall : clockCycle h1 s =
      Machine.mk s.ram s.frameBuffer (Function.update s.stack (s.SP + 1) s.PC) s.v (s.SP + 1)
        s.DT s.ST s.I nnn := by
    rw [clockCycle_eq, fetch_encNNN s 2 nnn (by omega) hn (by omega) hlo,
      decodeInstruction_2nnn nnn hn, runInstruction_CALL_eq, encNNN_nnn 2 nnn hn]
    simp only [hsp1, hpc1]
  have hfetch : fetch (clockCycle h1 s) = 0x00EE := by
    rw [hcall]
    show u16 ((s.ram nnn <<< 8 ||| s.ram (nnn + 1) : Nat)) = 0x00EE
    rw [hr0, hr1]
    decide
  have hsp2 : u8 (((s.SP + 1 : Nat) : Int) - 1) = s.SP := by unfold u8; omega
  have hpc2 : u16 ((s.PC : Int) + 2) = s.PC + 2 := by
    unfold u16; unfold RAM_SIZE at hp; omega
  have hret : clockCycle h2 (clockCycle h1 s) =
      Machine.mk s.ram s.frameBuffer (Function.update s.stack (s.SP + 1) s.PC) s.v s.SP
        s.DT s.ST s.I (s.PC + 2) := by
    rw [clockCycle_eq, hfetch, decodeInstruction_00EE, runInstruction_RET_eq, hcall]
    simp only [Function.update_same, hsp2, hpc2]
  rw [hret, hcall]
  exact ⟨rfl, rfl, Function.update_same _ _ _, rfl, rfl, rfl, rfl, rfl, rfl, rfl, rfl⟩

theorem CALL_RET_roundtrip_witness :
    (clockCycle idleHost (romMachine [0x22, 0x04, 0x00, 0x00, 0x00, 0xEE])).PC = 0x204 ∧
    (clockCycle idleHost (romMachine [0x22, 0x04, 0x00, 0x00, 0x00, 0xEE])).SP = 1 ∧
    (clockCycle idleHost (romMachine [0x22, 0x04, 0x00, 0x00, 0x00, 0xEE])).stack 1 = 0x200 ∧
    (clockCycle idleHost (clockCycle idleHost
      (romMachine [0x22, 0x04, 0x00, 0x00, 0x00, 0xEE]))).PC = 0x202 ∧
    (clockCycle idleHost (clockCycle idleHost
      (romMachine [0x22, 0x04, 0x00, 0x00, 0x00, 0xEE]))).SP = 0 := by
  have hw := CALL_RET_roundtrip (romMachine [0x22, 0x04, 0x00, 0x00, 0x00, 0xEE]) idleHost
    idleHost 0x204 (by decide) (by decide) (by decide) (by decide) (by decide) (by decide)
    (by decide)
  exact ⟨hw.1, hw.2.1, hw.2.2.1, hw.2.2.2.1, hw.2.2.2.2.1⟩

/-! ## Memory instructions -/

theorem decodeInstruction_Fx33 (x : Nat) (hx : x < 16) :
    decodeInstruction (encXKK 0xF x 0x33) = LDBVX := by
  have hw : encXKK 0xF x 0x33 < 65536 := encXKK_lt 0xF x 0x33 (by omega) hx (by omega)
  rw [decodeInstruction_eq_chip8Table _ hw]
  have h1 : encXKK 0xF x 0x33 / 4096 = 15 := by unfold encXKK; omega
  have h2 : encXKK 0xF x 0x33 % 256 = 0x33 := by unfold encXKK; omega
  have h3 : encXKK 0xF x 0x33 ≠ 0 := by unfold encXKK; omega
  have h4 : encXKK 0xF x 0x33 ≠ 224 := by unfold encXKK; omega
  have h5 : encXKK 0xF x 0x33 ≠ 238 := by unfold encXKK; omega
  simp [chip8Table, undefinedPattern, h1, h2, h3, h4, h5]

theorem decodeInstruction_Fx55 (x : Nat) (hx : x < 16) :
    decodeInstruction (encXKK 0xF x 0x55) = LDIVX := by
  have hw : encXKK 0xF x 0x55 < 65536 := encXKK_lt 0xF x 0x55 (by omega) hx (by omega)
  rw [decodeInstruction_eq_chip8Table _ hw]
  have h1 : encXKK 0xF x 0x55 / 4096 = 15 := by unfold encXKK; omega
  have h2 : encXKK 0xF x 0x55 % 256 = 0x55 := by unfold encXKK; omega
  have h3 : encXKK 0xF x 0x55 ≠ 0 := by unfold encXKK; omega
  have h4 : encXKK 0xF x 0x55 ≠ 224 := by unfold encXKK; omega
  have h5 : encXKK 0xF x 0x55 ≠ 238 := by unfold encXKK; omega
  simp [chip8Table, undefinedPattern, h1, h2, h3, h4, h5]

theorem decodeInstruction_Fx65 (x : Nat) (hx : x < 16) :
    decodeInstruction (encXKK 0xF x 0x65) = LDVXI := by
  have hw : encXKK 0xF x 0x65 < 65536 := encXKK_lt 0xF x 0x65 (by omega) hx (by omega)
  rw [decodeInstruction_eq_chip8Table _ hw]
  have h1 : encXKK 0xF x 0x65 / 4096 = 15 := by unfold encXKK; omega
  have h2 : encXKK 0xF x 0x65 % 256 = 0x65 := by unfold encXKK; omega
  have h3 : encXKK 0xF x 0x65 ≠ 0 := by unfold encXKK; omega
  have h4 : encXKK 0xF x 0x65 ≠ 224 := by unfold encXKK; omega
  have h5 : encXKK 0xF x 0x65 ≠ 238 := by unfold encXKK; omega
  simp [chip8Table, undefinedPattern, h1, h2, h3, h4, h5]

theorem runInstruction_LDBVX_eq (w : Nat) (h : Host) (s : Machine) :
    runInstruction LDBVX w h s =
      ((0 : Int), Machine.mk
        (Function.update (Function.update (Function.update s.ram s.I
          (s.v ((w &&& 0x0F00) >>> 8) / 100)) (s.I + 1)
          ((s.v ((w &&& 0x0F00) >>> 8) / 10) % 10)) (s.I + 2)
          (s.v ((w &&& 0x0F00) >>> 8) % 10))
        s.frameBuffer s.stack s.v s.SP s.DT s.ST s.I s.PC) := rfl

/-- C13. For every Vx in 0..255 and every I with I + 2 < 4096, after `Fx33` the bytes
memory[I], memory[I+1], memory[I+2] are the hundreds, tens and ones decimal digits of Vx: each
is at most 9 and 100 * memory[I] + 10 * memory[I+1] + memory[I+2] = Vx; all other memory
bytes, all registers and I are unchanged. -/
theorem LDBVX_digits (s : Machine) (h : Host) (x : Nat) (hx : x < 16) (hv : s.v x < 256)
    (_hI : s.I + 2 < RAM_SIZE) :
    (runInstruction (decodeInstruction (encXKK 0xF x 0x33)) (encXKK 0xF x 0x33) h s).2.ram s.I
      = s.v x / 100 ∧
    (runInstruction (decodeInstruction (encXKK 0xF x 0x33)) (encXKK 0xF x 0x33) h s).2.ram
      (s.I + 1) = s.v x / 10 % 10 ∧
    (runInstruction (decodeInstruction (encXKK 0xF x 0x33)) (encXKK 0xF x 0x33) h s).2.ram
      (s.I + 2) = s.v x % 10 ∧
    s.v x / 100 ≤ 9 ∧ s.v x / 10 % 10 ≤ 9 ∧ s.v x % 10 ≤ 9 ∧
    100 * (s.v x / 100) + 10 * (s.v x / 10 % 10) + s.v x % 10 = s.v x ∧
    (∀ a, a ≠ s.I → a ≠ s.I + 1 → a ≠ s.I + 2 →
      (runInstruction (decodeInstruction (encXKK 0xF x 0x33)) (encXKK 0xF x 0x33) h s).2.ram a
        = s.ram a) ∧
    (runInstruction (decodeInstruction (encXKK 0xF x 0x33)) (encXKK 0xF x 0x33) h s).2.v = s.v ∧
    (runInstruction (decodeInstruction (encXKK 0xF x 0x33)) (encXKK 0xF x 0x33) h s).2.I = s.I
    := by
  rw [decodeInstruction_Fx33 x hx, runInstruction_LDBVX_eq, encXKK_x 0xF x 0x33 hx (by omega)]
  refine ⟨?_, ?_, ?_, by omega, by omega, by omega, by omega, fun a h0 h1 h2 => ?_, rfl, rfl⟩
  · show Function.update (Function.update (Function.update s.ram s.I _) (s.I + 1) _) (s.I + 2) _
      s.I = _
    rw [Function.update_noteq (by omega), Function.update_noteq (by omega),
      Function.update_same]
  · show Function.update (Function.update (Function.update s.ram s.I _) (s.I + 1) _) (s.I + 2) _
      (s.I + 1) = _
    rw [Function.update_noteq (by omega), Function.update_same]
  · show Function.update (Function.update (Function.update s.ram s.I _) (s.I + 1) _) (s.I + 2) _
      (s.I + 2) = _
    rw [Function.update_same]
  · show Function.update (Function.update (Function.update s.ram s.I _) (s.I + 1) _) (s.I + 2) _
      a = _
    rw [Function.update_noteq h2, Function.update_noteq h1, Function.update_noteq h0]

theorem LDBVX_digits_witness :
    (runInstruction (decodeInstruction (encXKK 0xF 1 0x33)) (encXKK 0xF 1 0x33) idleHost
      (regMachine 157 0)).2.ram 0 = 1 ∧
    (runInstruction (decodeInstruction (encXKK 0xF 1 0x33)) (encXKK 0xF 1 0x33) idleHost
      (regMachine 157 0)).2.ram 1 = 5 ∧
    (runInstruction (decodeInstruction (encXKK 0xF 1 0x33)) (encXKK 0xF 1 0x33) idleHost
      (regMachine 157 0)).2.ram 2 = 7 := by
  have hw := LDBVX_digits (regMachine 157 0) idleHost 1 (by decide) (by decide) (by decide)
  exact ⟨hw.1, hw.2.1, hw.2.2.1⟩

/-- The store loop of `Fx55`, run `n` times: it copies `v[0..n-1]` to the `n` bytes of
memory from `I & 0xFFF` on and touches nothing else. -/
theorem storeLoop_eq (s : Machine) (n : Nat) :
    (List.range n).foldl
      (fun st i => { st with ram := Function.update st.ram ((st.I &&& 0xFFF) + i) (st.v i) }) s =
    Machine.mk
      (fun a => if (s.I &&& 0xFFF) ≤ a ∧ a < (s.I &&& 0xFFF) + n then s.v (a - (s.I &&& 0xFFF))
        else s.ram a)
      s.frameBuffer s.stack s.v s.SP s.DT s.ST s.I s.PC := by
  induction n with
  | zero =>
    show s = _
    have : (fun a => if (s.I &&& 0xFFF) ≤ a ∧ a < (s.I &&& 0xFFF) + 0 then
        s.v (a - (s.I &&& 0xFFF)) else s.ram a) = s.ram := by
      funext a
      rw [if_neg (by omega)]
    rw [this]
  | succ n ih =>
    rw [List.range_succ, List.foldl_append, ih]
    show Machine.mk _ _ _ _ _ _ _ _ _ = _
    congr 1
    funext a
    by_cases ha : a = (s.I &&& 0xFFF) + n
    · subst ha
      rw [Function.update_same, if_pos ⟨by omega, by omega⟩, Nat.add_sub_cancel_left]
    · rw [Function.update_noteq ha]
      dsimp only
      by_cases hr : (s.I &&& 0xFFF) ≤ a ∧ a < (s.I &&& 0xFFF) + n
      · rw [if_pos hr, if_pos ⟨hr.1, by omega⟩]
      · rw [if_neg hr, if_neg (by omega)]

/-- The load loop of `Fx65`, run `n` times: it copies the `n` bytes of memory from
`I & 0xFFF` on to `v[0..n-1]` and touches nothing else. -/
theorem loadLoop_eq (s : Machine) (n : Nat) :
    (List.range n).foldl
      (fun st i => { st with v := Function.update st.v i (st.ram ((st.I &&& 0x0FFF) + i)) }) s =
    Machine.mk s.ram s.frameBuffer s.stack
      (fun k => if k < n then s.ram ((s.I &&& 0x0FFF) + k) else s.v k)
      s.SP s.DT s.ST s.I s.PC := by
  induction n with
  | zero =>
    show s = _
    have : (fun k => if k < 0 then s.ram ((s.I &&& 0x0FFF) + k) else s.v k) = s.v := by
      funext k
      rw [if_neg (by omega)]
    rw [this]
  | succ n ih =>
    rw [List.range_succ, List.foldl_append, ih]
    show Machine.mk _ _ _ _ _ _ _ _ _ = _
    congr 1
    funext k
    by_cases hk : k = n
    · subst hk
      rw [Function.update_same, if_pos (by omega)]
    · rw [Function.update_noteq hk]
      dsimp only
      by_cases hr : k < n
      · rw [if_pos hr, if_pos (by omega)]
      · rw [if_neg hr, if_neg (by omega)]

theorem runInstruction_LDIVX_eq (w : Nat) (h : Host) (s : Machine) :
    runInstruction LDIVX w h s =
      ((0 : Int), (List.range ((w &&& 0x0F00) >>> 8 + 1)).foldl
        (fun st i => { st with ram := Function.update st.ram ((st.I &&& 0xFFF) + i) (st.v i) })
        s) := rfl

theorem runInstruction_LDVXI_eq (w : Nat) (h : Host) (s : Machine) :
    runInstruction LDVXI w h s =
      ((0 : Int), (List.range ((w &&& 0x0F00) >>> 8 + 1)).foldl
        (fun st i => { st with v := Function.update st.v i (st.ram ((st.I &&& 0x0FFF) + i)) })
        s) := rfl

/-- C14. Register-block store then load is a round trip: for every x in 0..F, every
register contents and every I with (I & 0xFFF) + x < 4096, executing `Fx55`, then overwriting
the registers with arbitrary values `v2`, then executing `Fx65` with the same I yields the
original V0..Vx; `Fx55` changes only the memory bytes (I & 0xFFF) .. (I & 0xFFF) + x, `Fx65`
changes only V0..Vx, and neither instruction changes I. -/
theorem LDIVX_LDVXI_roundtrip (s : Machine) (h1 h2 : Host) (x : Nat) (hx : x < 16)
    (_hI : (s.I &&& 0xFFF) + x < RAM_SIZE) (v2 : Nat → Nat) :
    (∀ k, k ≤ x →
      (runInstruction (decodeInstruction (encXKK 0xF x 0x65)) (encXKK 0xF x 0x65) h2
        { (runInstruction (decodeInstruction (encXKK 0xF x 0x55)) (encXKK 0xF x 0x55) h1 s).2
          with v := v2 }).2.v k = s.v k) ∧
    (∀ k, x < k →
      (runInstruction (decodeInstruction (encXKK 0xF x 0x65)) (encXKK 0xF x 0x65) h2
        { (runInstruction (decodeInstruction (encXKK 0xF x 0x55)) (encXKK 0xF x 0x55) h1 s).2
          with v := v2 }).2.v k = v2 k) ∧
    (runInstruction (decodeInstruction (encXKK 0xF x 0x65)) (encXKK 0xF x 0x65) h2
        { (runInstruction (decodeInstruction (encXKK 0xF x 0x55)) (encXKK 0xF x 0x55) h1 s).2
          with v := v2 }).2.ram =
      (runInstruction (decodeInstruction (encXKK 0xF x 0x55)) (encXKK 0xF x 0x55) h1 s).2.ram ∧
    (runInstruction (decodeInstruction (encXKK 0xF x 0x65)) (encXKK 0xF x 0x65) h2
        { (runInstruction (decodeInstruction (encXKK 0xF x 0x55)) (encXKK 0xF x 0x55) h1 s).2
          with v := v2 }).2.I = s.I ∧
    (∀ a, (a < (s.I &&& 0xFFF) ∨ (s.I &&& 0xFFF) + x < a) →
      (runInstruction (decodeInstruction (encXKK 0xF x 0x55)) (encXKK 0xF x 0x55) h1 s).2.ram a
        = s.ram a) ∧
    (runInstruction (decodeInstruction (encXKK 0xF x 0x55)) (encXKK 0xF x 0x55) h1 s).2.v = s.v ∧
    (runInstruction (decodeInstruction (encXKK 0xF x 0x55)) (encXKK 0xF x 0x55) h1 s).2.I = s.I
    := by
  rw [decodeInstruction_Fx55 x hx, decodeInstruction_Fx65 x hx, runInstruction_LDIVX_eq,
    runInstruction_LDVXI_eq, encXKK_x 0xF x 0x55 hx (by omega),
    encXKK_x 0xF x 0x65 hx (by omega), storeLoop_eq, loadLoop_eq]
  refine ⟨fun k hk => ?_, fun k hk => ?_, rfl, rfl, fun a ha => ?_, rfl, rfl⟩
  · show (if k < x + 1 then (if (s.I &&& 0xFFF) ≤ (s.I &&& 0x0FFF) + k ∧
        (s.I &&& 0x0FFF) + k < (s.I &&& 0xFFF) + (x + 1) then
        s.v ((s.I &&& 0x0FFF) + k - (s.I &&& 0xFFF)) else s.ram ((s.I &&& 0x0FFF) + k))
      else v2 k) = s.v k
    rw [if_pos (by omega), if_pos ⟨by omega, by omega⟩, Nat.add_sub_cancel_left]
  · show (if k < x + 1 then _ else v2 k) = v2 k
    rw [if_neg (by omega)]
  · show (if (s.I &&& 0xFFF) ≤ a ∧ a < (s.I &&& 0xFFF) + (x + 1) then _ else s.ram a) = s.ram a
    rw [if_neg (by omega)]

theorem LDIVX_LDVXI_roundtrip_witness :
    (runInstruction (decodeInstruction (encXKK 0xF 3 0x65)) (encXKK 0xF 3 0x65) idleHost
      { (runInstruction (decodeInstruction (encXKK 0xF 3 0x55)) (encXKK 0xF 3 0x55) idleHost
          (regMachine 11 22)).2 with v := fun _ => 99 }).2.v 1 = 11 ∧
    (runInstruction (decodeInstruction (encXKK 0xF 3 0x65)) (encXKK 0xF 3 0x65) idleHost
      { (runInstruction (decodeInstruction (encXKK 0xF 3 0x55)) (encXKK 0xF 3 0x55) idleHost
          (regMachine 11 22)).2 with v := fun _ => 99 }).2.v 2 = 22 ∧
    (runInstruction (decodeInstruction (encXKK 0xF 3 0x65)) (encXKK 0xF 3 0x65) idleHost
      { (runInstruction (decodeInstruction (encXKK 0xF 3 0x55)) (encXKK 0xF 3 0x55) idleHost
          (regMachine 11 22)).2 with v := fun _ => 99 }).2.v 4 = 99 := by
  have hw := LDIVX_LDVXI_roundtrip (regMachine 11 22) idleHost idleHost 3 (by decide)
    (by decide) (fun _ => 99)
  exact ⟨hw.1 1 (by decide), hw.1 2 (by decide), hw.2.1 4 (by decide)⟩

/-! ## Wait for key -/

/-- C15 (failing input). With no key down (`obtainKey` reports 0xFF) and PC = 0x200 pointing
at `F10A`, one `clockCycle` stores 0xFF in V1 and advances PC to 0x202: the instruction does
not wait. -/
theorem LDK_does_not_wait :
    obtainKey idleHost = 0xFF ∧
    (romMachine [0xF1, 0x0A]).PC = 0x200 ∧ (romMachine [0xF1, 0x0A]).v 1 = 0 ∧
    fetch (romMachine [0xF1, 0x0A]) = 0xF10A ∧
    (clockCycle idleHost (romMachine [0xF1, 0x0A])).PC = 0x202 ∧
    (clockCycle idleHost (romMachine [0xF1, 0x0A])).v 1 = 0xFF := by
  decide

/-! ## The flag register -/

theorem runInstruction_ADDREG_eq (w : Nat) (h : Host) (s : Machine) :
    runInstruction ADDREG w h s =
      ((0 : Int), Machine.mk s.ram s.frameBuffer s.stack
        (Function.update (Function.update s.v ((w &&& 0x0F00) >>> 8)
          (u32 (s.v ((w &&& 0x0F00) >>> 8) + s.v ((w &&& 0x00F0) >>> 4)) &&& 0x00FF)) 0xF
          (if u32 (s.v ((w &&& 0x0F00) >>> 8) + s.v ((w &&& 0x00F0) >>> 4)) &&& 0xFF00 ≠ 0
            then 1 else 0))
        s.SP s.DT s.ST s.I s.PC) := rfl

theorem runInstruction_SUB_eq (w : Nat) (h : Host) (s : Machine) :
    runInstruction SUB w h s =
      ((0 : Int), Machine.mk s.ram s.frameBuffer s.stack
        (Function.update (Function.update s.v ((w &&& 0x0F00) >>> 8)
          (u32 (s.v ((w &&& 0x0F00) >>> 8) - s.v ((w &&& 0x00F0) >>> 4)) &&& 0x00FF)) 0xF
          (if u32 (s.v ((w &&& 0x0F00) >>> 8) - s.v ((w &&& 0x00F0) >>> 4)) &&& 0xFF00 = 0
            then 1 else 0))
        s.SP s.DT s.ST s.I s.PC) := rfl

theorem runInstruction_SUBN_eq (w : Nat) (h : Host) (s : Machine) :
    runInstruction SUBN w h s =
      ((0 : Int), Machine.mk s.ram s.frameBuffer s.stack
        (Function.update (Function.update s.v ((w &&& 0x0F00) >>> 8)
          (u8 (s.v ((w &&& 0x00F0) >>> 4) - s.v ((w &&& 0x0F00) >>> 8)))) 0xF
          (if Function.update s.v ((w &&& 0x0F00) >>> 8)
                (u8 (s.v ((w &&& 0x00F0) >>> 4) - s.v ((w &&& 0x0F00) >>> 8)))
                ((w &&& 0x00F0) >>> 4) >
              Function.update s.v ((w &&& 0x0F00) >>> 8)
                (u8 (s.v ((w &&& 0x00F0) >>> 4) - s.v ((w &&& 0x0F00) >>> 8)))
                ((w &&& 0x0F00) >>> 8)
            then 1 else 0))
        s.SP s.DT s.ST s.I s.PC) := rfl

/-- The flag written by `drawSpriteToFramebuffer` is 0 or 1. -/
theorem drawSpriteToFramebuffer_vF_bit (w : Nat) (s : Machine) :
    (drawSpriteToFramebuffer w s).v 0xF = 0 ∨ (drawSpriteToFramebuffer w s).v 0xF = 1 := by
  obtain ⟨h1, h0⟩ := drawSpriteToFramebuffer_vF w s
  by_cases hex : ∃ i j, i < (w &&& 0x000F) ∧ j < 8 ∧
        Function.update s.v 0xF 0 ((w &&& 0x0F00) >>> 8) + j < SCREEN_WIDTH ∧
        Function.update s.v 0xF 0 ((w &&& 0x00F0) >>> 4) + i < SCREEN_HEIGHT ∧
        Nat.testBit (s.ram (s.I + i)) (7 - j) = true ∧
        s.frameBuffer (Function.update s.v 0xF 0 ((w &&& 0x0F00) >>> 8) + j)
          (Function.update s.v 0xF 0 ((w &&& 0x00F0) >>> 4) + i) ≠ 0
  · exact Or.inr (h1 hex)
  · exact Or.inl (h0 hex)

theorem carry_flag (a b : Nat) (ha : a < 256) (hb : b < 256) :
    (if u32 ((a : Int) + (b : Int)) &&& 0xFF00 ≠ 0 then 1 else 0) =
      if a + b > 0xFF then 1 else 0 := by
  have hsum : u32 ((a : Int) + (b : Int)) = a + b := by unfold u32; omega
  rw [hsum, and_FF00]
  by_cases hc : a + b > 0xFF
  · rw [if_pos hc, if_pos (by omega)]
  · rw [if_neg hc, if_neg (by omega)]

theorem no_borrow_flag (a b : Nat) (ha : a < 256) (hb : b < 256) :
    (if u32 ((a : Int) - (b : Int)) &&& 0xFF00 = 0 then 1 else 0) =
      if a ≥ b then 1 else 0 := by
  rw [u32_sub a b ha hb, and_FF00]
  by_cases hc : b ≤ a
  · rw [if_pos hc, if_pos (by omega), if_pos hc]
  · rw [if_neg hc, if_neg (by omega), if_neg hc]

/-- C20. Writing VF as a flag always overwrites: for every state and every instruction
`8xy4`, `8xy5`, `8xy6`, `8xy7`, `8xyE` or `Dxyn`, for every x and y in 0..F including x = F,
VF after execution is exactly 0 or 1; and when x = F the value left in VF by `8Fy4`, `8Fy5`,
`8Fy6`, `8FyE` is the carry, no-borrow or shifted-out bit of the old VF (and Vy), not the
arithmetic or shift result. -/
theorem VF_is_flag (s : Machine) (hs : s.wf) (h : Host) (x y n : Nat) (hx : x < 16)
    (hy : y < 16) (hn : n < 16) :
    (∀ w ∈ [encXYN 8 x y 4, encXYN 8 x y 5, encXYN 8 x y 6, encXYN 8 x y 7, encXYN 8 x y 0xE,
        encXYN 0xD x y n],
      (runInstruction (decodeInstruction w) w h s).2.v 0xF = 0 ∨
      (runInstruction (decodeInstruction w) w h s).2.v 0xF = 1) ∧
    ((runInstruction (decodeInstruction (encXYN 8 0xF y 4)) (encXYN 8 0xF y 4) h s).2.v 0xF =
        (if s.v 0xF + s.v y > 0xFF then 1 else 0) ∧
      (runInstruction (decodeInstruction (encXYN 8 0xF y 5)) (encXYN 8 0xF y 5) h s).2.v 0xF =
        (if s.v 0xF ≥ s.v y then 1 else 0) ∧
      (runInstruction (decodeInstruction (encXYN 8 0xF y 6)) (encXYN 8 0xF y 6) h s).2.v 0xF =
        s.v 0xF % 2 ∧
      (runInstruction (decodeInstruction (encXYN 8 0xF y 0xE)) (encXYN 8 0xF y 0xE) h s).2.v 0xF =
        s.v 0xF / 128 % 2) := by
  obtain ⟨-, -, -, hv, -⟩ := hs
  constructor
  · intro w hw
    simp only [List.mem_cons, List.mem_singleton, List.not_mem_nil, or_false] at hw
    rcases hw with rfl | rfl | rfl | rfl | rfl | rfl
    · rw [decodeInstruction_8xy4 x y hx hy, runInstruction_ADDREG_eq]
      dsimp only
      rw [Function.update_same]
      split_ifs <;> simp
    · rw [decodeInstruction_8xy5 x y hx hy, runInstruction_SUB_eq]
      dsimp only
      rw [Function.update_same]
      split_ifs <;> simp
    · rw [decodeInstruction_8xy6 x y hx hy, runInstruction_SHR_eq]
      dsimp only
      rw [Function.update_same, Nat.and_one_is_mod]
      omega
    · rw [decodeInstruction_8xy7 x y hx hy, runInstruction_SUBN_eq]
      dsimp only
      rw [Function.update_same]
      split_ifs <;> simp
    · rw [decodeInstruction_8xyE x y hx hy, runInstruction_SHL_eq]
      dsimp only
      rw [Function.update_same]
      split_ifs <;> simp
    · rw [decodeInstruction_Dxyn x y n hx hy hn, runInstruction_DRW_eq]
      exact drawSpriteToFramebuffer_vF_bit _ s
  · refine ⟨?_, ?_, ?_, ?_⟩
    · rw [decodeInstruction_8xy4 0xF y (by omega) hy, runInstruction_ADDREG_eq]
      dsimp only
      rw [Function.update_same, encXYN_x 8 0xF y 4 (by omega) hy (by omega),
        encXYN_y 8 0xF y 4 hy (by omega)]
      exact carry_flag _ _ (hv _) (hv _)
    · rw [decodeInstruction_8xy5 0xF y (by omega) hy, runInstruction_SUB_eq]
      dsimp only
      rw [Function.update_same, encXYN_x 8 0xF y 5 (by omega) hy (by omega),
        encXYN_y 8 0xF y 5 hy (by omega)]
      exact no_borrow_flag _ _ (hv _) (hv _)
    · rw [decodeInstruction_8xy6 0xF y (by omega) hy, runInstruction_SHR_eq]
      dsimp only
      rw [Function.update_same, encXYN_x 8 0xF y 6 (by omega) hy (by omega),
        Nat.and_one_is_mod]
    · rw [decodeInstruction_8xyE 0xF y (by omega) hy, runInstruction_SHL_eq]
      dsimp only
      rw [Function.update_same, encXYN_x 8 0xF y 0xE (by omega) hy (by omega), and_80]
      split_ifs <;> omega

theorem flagMachine_wf : flagMachine.wf := by
  refine ⟨?_, ?_, ?_, ?_, ?_, ?_, ?_, ?_, ?_⟩ <;> simp [flagMachine, regMachine, Machine.init]
  intro k
  split_ifs <;> omega

theorem VF_is_flag_witness :
    ((runInstruction (decodeInstruction (encXYN 8 0xF 2 4)) (encXYN 8 0xF 2 4) idleHost
        flagMachine).2.v 0xF = 0 ∨
      (runInstruction (decodeInstruction (encXYN 8 0xF 2 4)) (encXYN 8 0xF 2 4) idleHost
        flagMachine).2.v 0xF = 1) ∧
    (runInstruction (decodeInstruction (encXYN 8 0xF 2 4)) (encXYN 8 0xF 2 4) idleHost
      flagMachine).2.v 0xF = 1 := by
  have hw := VF_is_flag flagMachine flagMachine_wf idleHost 0xF 2 5 (by decide) (by decide)
    (by decide)
  refine ⟨hw.1 _ (List.mem_cons_self _ _), ?_⟩
  rw [hw.2.1]
  decide

/-- C21. In `drawSpriteToFramebuffer` VF is cleared before the coordinates are read: for
every state and every `Dxyn` instruction the resulting framebuffer is the one drawn from the
state that differs only in having VF = 0, and the sprite is drawn with column origin 0 when
x = F and row origin 0 when y = F, whatever VF held before. -/
theorem DRW_origin_after_clear (s : Machine) (h : Host) (x y n : Nat) (hx : x < 16)
    (hy : y < 16) (hn : n < 16) :
    (runInstruction (decodeInstruction (encXYN 0xD x y n)) (encXYN 0xD x y n) h s).2.frameBuffer =
      (runInstruction (decodeInstruction (encXYN 0xD x y n)) (encXYN 0xD x y n) h
        (Machine.mk s.ram s.frameBuffer s.stack (Function.update s.v 0xF 0) s.SP s.DT s.ST s.I
          s.PC)).2.frameBuffer ∧
    (∀ c r,
      (runInstruction (decodeInstruction (encXYN 0xD x y n)) (encXYN 0xD x y n) h
          s).2.frameBuffer c r =
        if c < SCREEN_WIDTH ∧ r < SCREEN_HEIGHT ∧
            (if x = 0xF then 0 else s.v x) ≤ c ∧ c < (if x = 0xF then 0 else s.v x) + 8 ∧
            (if y = 0xF then 0 else s.v y) ≤ r ∧ r < (if y = 0xF then 0 else s.v y) + n then
          s.frameBuffer c r ^^^
            (Nat.testBit (s.ram (s.I + (r - (if y = 0xF then 0 else s.v y))))
              (7 - (c - (if x = 0xF then 0 else s.v x)))).toNat
        else s.frameBuffer c r) := by
  rw [decodeInstruction_Dxyn x y n hx hy hn, runInstruction_DRW_eq, runInstruction_DRW_eq]
  have hupd : ∀ k, Function.update s.v 0xF 0 k = if k = 0xF then 0 else s.v k := by
    intro k
    by_cases hk : k = 0xF
    · subst hk; rw [Function.update_same, if_pos rfl]
    · rw [Function.update_noteq hk, if_neg hk]
  constructor
  · funext c r
    dsimp only
    rw [drawSpriteToFramebuffer_frameBuffer, drawSpriteToFramebuffer_frameBuffer]
    dsimp only
    rw [Function.update_idem]
  · intro c r
    dsimp only
    rw [drawSpriteToFramebuffer_frameBuffer, encXYN_x 0xD x y n hx hy hn,
      encXYN_y 0xD x y n hy hn, encXYN_n 0xD x y n hn, hupd x, hupd y]

theorem DRW_origin_after_clear_witness :
    (runInstruction (decodeInstruction (encXYN 0xD 0xF 0xF 5)) (encXYN 0xD 0xF 0xF 5) idleHost
      vfSpriteMachine).2.frameBuffer 0 0 = 1 ∧
    (runInstruction (decodeInstruction (encXYN 0xD 0xF 0xF 5)) (encXYN 0xD 0xF 0xF 5) idleHost
      vfSpriteMachine).2.frameBuffer 60 0 = 0 ∧
    vfSpriteMachine.v 0xF = 60 := by
  have hw := (DRW_origin_after_clear vfSpriteMachine idleHost 0xF 0xF 5 (by decide) (by decide)
    (by decide)).2
  rw [hw 0 0, hw 60 0]
  decide

/-! ## What one instruction leaves alone -/

theorem runInstruction_SEREG_eq (w : Nat) (h : Host) (s : Machine) :
    runInstruction SEREG w h s =
      ((0 : Int), if s.v ((w &&& 0x0F00) >>> 8) = s.v ((w &&& 0x00F0) >>> 4) then
        Machine.mk s.ram s.frameBuffer s.stack s.v s.SP s.DT s.ST s.I (u16 (s.PC + 2))
        else s) := rfl

theorem runInstruction_SNEREG_eq (w : Nat) (h : Host) (s : Machine) :
    runInstruction SNEREG w h s =
      ((0 : Int), Machine.mk s.ram s.frameBuffer s.stack s.v s.SP s.DT s.ST s.I
        (u16 (s.PC + (if s.v ((w &&& 0x0F00) >>> 8) ≠ s.v ((w &&& 0x00F0) >>> 4)
          then 2 else 0 : Nat)))) := rfl

theorem runInstruction_SKP_eq (w : Nat) (h : Host) (s : Machine) :
    runInstruction SKP w h s =
      ((0 : Int), if obtainKey h = s.v ((w &&& 0x0F00) >>> 8) then
        Machine.mk s.ram s.frameBuffer s.stack s.v s.SP s.DT s.ST s.I (u16 (s.PC + 2))
        else s) := rfl

theorem runInstruction_SKNP_eq (w : Nat) (h : Host) (s : Machine) :
    runInstruction SKNP w h s =
      ((0 : Int), if obtainKey h ≠ s.v ((w &&& 0x0F00) >>> 8) then
        Machine.mk s.ram s.frameBuffer s.stack s.v s.SP s.DT s.ST s.I (u16 (s.PC + 2))
        else s) := rfl

set_option maxHeartbeats 1600000 in
/-- Outside the timer writes `Fx15` / `Fx18`, the stack instructions and the jumps,
`runInstruction` leaves DT, ST and SP alone and moves PC by 0 or by 2. -/
theorem runInstruction_frame (op : opcode_t) (hop : op ∈ caseLabels) (w : Nat) (h : Host)
    (s : Machine) :
    (op ≠ LDDTVX → (runInstruction op w h s).2.DT = s.DT) ∧
    (op ≠ LDSTVX → (runInstruction op w h s).2.ST = s.ST) ∧
    (op ≠ RET → op ≠ CALL → (runInstruction op w h s).2.SP = s.SP) ∧
    (s.PC < 65536 → op ≠ RET → op ≠ JPADR → op ≠ CALL → op ≠ JPREG →
      ((runInstruction op w h s).2.PC = s.PC ∨
        (runInstruction op w h s).2.PC = u16 ((s.PC : Int) + 2))) := by
  obtain ⟨-, -, d3, d4, d5, d6, d7⟩ := drawSpriteToFramebuffer_rest w s
  have hz : s.PC < 65536 → u16 ((s.PC : Int) + ((0 : Nat) : Int)) = s.PC := by
    intro hpc; unfold u16; omega
  simp only [caseLabels, List.mem_cons, List.mem_singleton, List.not_mem_nil, or_false] at hop
  rcases hop with rfl | rfl | rfl | rfl | rfl | rfl | rfl | rfl | rfl | rfl | rfl | rfl | rfl |
    rfl | rfl | rfl | rfl | rfl | rfl | rfl | rfl | rfl | rfl | rfl | rfl | rfl | rfl | rfl |
    rfl | rfl | rfl | rfl | rfl | rfl | rfl | rfl | rfl
  all_goals refine ⟨fun _ => ?_, fun _ => ?_, fun _ _ => ?_, fun hpc _ _ _ _ => ?_⟩
  all_goals first
    | contradiction
    | rfl
    | exact Or.inl rfl
    | exact d3
    | exact d4
    | exact d5
    | exact Or.inl d7
    | (rw [runInstruction_LDIVX_eq, storeLoop_eq]; done)
    | (rw [runInstruction_LDIVX_eq, storeLoop_eq]; exact Or.inl rfl)
    | (rw [runInstruction_LDVXI_eq, loadLoop_eq]; done)
    | (rw [runInstruction_LDVXI_eq, loadLoop_eq]; exact Or.inl rfl)
    | (simp only [runInstruction_SEIMM_eq, runInstruction_SNE_eq, runInstruction_SEREG_eq,
        runInstruction_SKP_eq, runInstruction_SKNP_eq]
       split_ifs <;> first | rfl | exact Or.inl rfl | exact Or.inr rfl)
    | (rw [runInstruction_SNEREG_eq]
       dsimp only
       split_ifs
       · exact Or.inr rfl
       · exact Or.inl (hz hpc))

theorem fetch_lt (s : Machine) : fetch s < 65536 := by
  unfold fetch u16; omega

theorem decodeInstruction_fetch_mem (s : Machine) :
    decodeInstruction (fetch s) ∈ caseLabels := by
  rw [decodeInstruction_eq_chip8Table _ (fetch_lt s)]
  exact chip8Table_mem_caseLabels _

theorem cycles_zero (h : Nat → Host) (s : Machine) : cycles 0 h s = s := rfl

theorem cycles_succ (n : Nat) (h : Nat → Host) (s : Machine) :
    cycles (n + 1) h s = clockCycle (h n) (cycles n h s) := by
  unfold cycles
  rw [List.range_succ, List.foldl_append]
  rfl

theorem mainLoop_zero (h : Nat → Nat → Host) (s : Machine) : mainLoop 0 h s = s := rfl

theorem mainLoop_succ (k : Nat) (h : Nat → Nat → Host) (s : Machine) :
    mainLoop (k + 1) h s = frameTick (h k) (mainLoop k h s) := by
  unfold mainLoop
  rw [List.range_succ, List.foldl_append]
  rfl

/-! ## Timers -/

theorem clockCycle_timers (h : Host) (s : Machine)
    (hq : decodeInstruction (fetch s) ≠ LDDTVX ∧ decodeInstruction (fetch s) ≠ LDSTVX) :
    (clockCycle h s).DT = s.DT ∧ (clockCycle h s).ST = s.ST := by
  obtain ⟨f1, f2, -, -⟩ :=
    runInstruction_frame _ (decodeInstruction_fetch_mem s) (fetch s) h s
  rw [clockCycle_eq]
  exact ⟨f1 hq.1, f2 hq.2⟩

theorem cycles_timers (n : Nat) (h : Nat → Host) (s : Machine)
    (hq : ∀ i < n, decodeInstruction (fetch (cycles i h s)) ≠ LDDTVX ∧
      decodeInstruction (fetch (cycles i h s)) ≠ LDSTVX) :
    (cycles n h s).DT = s.DT ∧ (cycles n h s).ST = s.ST := by
  induction n with
  | zero => exact ⟨rfl, rfl⟩
  | succ n ih =>
    obtain ⟨i1, i2⟩ := ih (fun i hi => hq i (by omega))
    obtain ⟨c1, c2⟩ := clockCycle_timers (h n) (cycles n h s) (hq n (by omega))
    rw [cycles_succ]
    exact ⟨c1.trans i1, c2.trans i2⟩

theorem timerStep_eq (s : Machine) (hd : s.DT < 256) (ht : s.ST < 256) :
    (timerStep s).DT = s.DT - 1 ∧ (timerStep s).ST = s.ST - 1 := by
  unfold timerStep
  dsimp only
  constructor
  · split_ifs <;> unfold u8 <;> omega
  · split_ifs <;> unfold u8 <;> omega

/-- C16. The timer step that ends a frame of `mainLoop` maps each 8-bit timer t (DT and ST
independently) to t - 1 when t > 0 and to 0 when t = 0, so a timer never wraps from 0 to 255;
and after k consecutive frames in which no executed instruction is a timer write (`Fx15`,
`Fx18`), DT = max(DT0 - k, 0) and ST = max(ST0 - k, 0). -/
theorem timers_count_down :
    (∀ s : Machine, s.DT < 256 → s.ST < 256 →
      (timerStep s).DT = (if s.DT > 0 then s.DT - 1 else 0) ∧
      (timerStep s).ST = (if s.ST > 0 then s.ST - 1 else 0)) ∧
    (∀ (k : Nat) (h : Nat → Nat → Host) (s : Machine), s.DT < 256 → s.ST < 256 →
      (∀ f < k, ∀ i < INSTRUCTIONS_PER_FRAME,
        decodeInstruction (fetch (cycles i (h f) (mainLoop f h s))) ≠ LDDTVX ∧
        decodeInstruction (fetch (cycles i (h f) (mainLoop f h s))) ≠ LDSTVX) →
      (((mainLoop k h s).DT : Nat) : Int) = max ((s.DT : Int) - (k : Int)) 0 ∧
      (((mainLoop k h s).ST : Nat) : Int) = max ((s.ST : Int) - (k : Int)) 0) := by
  constructor
  · intro s hd ht
    obtain ⟨e1, e2⟩ := timerStep_eq s hd ht
    rw [e1, e2]
    constructor <;> split_ifs <;> omega
  · intro k h s hd ht hq
    have key : (mainLoop k h s).DT = s.DT - k ∧ (mainLoop k h s).ST = s.ST - k := by
      induction k with
      | zero => exact ⟨rfl, rfl⟩
      | succ k ih =>
        obtain ⟨i1, i2⟩ := ih (fun f hf => hq f (by omega))
        obtain ⟨c1, c2⟩ := cycles_timers INSTRUCTIONS_PER_FRAME (h k) (mainLoop k h s)
          (hq k (by omega))
        obtain ⟨t1, t2⟩ := timerStep_eq (cycles INSTRUCTIONS_PER_FRAME (h k) (mainLoop k h s))
          (by rw [c1, i1]; omega) (by rw [c2, i2]; omega)
        rw [mainLoop_succ]
        unfold frameTick
        rw [t1, t2, c1, c2, i1, i2]
        constructor <;> omega
    rw [key.1, key.2]
    constructor <;> omega

set_option maxRecDepth 100000 in
theorem timers_count_down_witness :
    (((mainLoop 2 (fun _ _ => idleHost) timerMachine).DT : Nat) : Int) = 0 ∧
    (((mainLoop 2 (fun _ _ => idleHost) timerMachine).ST : Nat) : Int) = 1 := by
  have hw := timers_count_down.2 2 (fun _ _ => idleHost) timerMachine (by decide) (by decide)
    (by decide)
  have hd : timerMachine.DT = 1 := rfl
  have ht : timerMachine.ST = 3 := rfl
  rw [hd, ht] at hw
  exact ⟨hw.1.trans (by decide), hw.2.trans (by decide)⟩

/-! ## Program counter -/

theorem clockCycle_PC (h : Host) (s : Machine) :
    (clockCycle h s).PC =
      u16 (((runInstruction (decodeInstruction (fetch s)) (fetch s) h s).2.PC : Nat) + 2) := by
  rw [clockCycle_eq]

/-- One guarded cycle keeps PC even and inside the program area. -/
theorem clockCycle_inProgramArea (h : Host) (s : Machine) (hin : inProgramArea s.PC)
    (hg : pcGuard s) : inProgramArea (clockCycle h s).PC := by
  obtain ⟨g1, g2, g3, g4⟩ := hg
  unfold inProgramArea PROGRAM_START MEMORY_END at *
  rw [clockCycle_PC]
  by_cases hj : decodeInstruction (fetch s) = JPADR
  · have hn := g1 (Or.inl hj)
    rw [hj, runInstruction_JPADR_eq]
    show u16 ((u16 (((fetch s &&& 0x0FFF : Nat) : Int) - 2) : Nat) + 2) % 2 = 0 ∧ _
    rw [u16_jump]
    omega
  by_cases hc : decodeInstruction (fetch s) = CALL
  · have hn := g1 (Or.inr hc)
    rw [hc, runInstruction_CALL_eq]
    show u16 ((u16 (((fetch s &&& 0x0FFF : Nat) : Int) - 2) : Nat) + 2) % 2 = 0 ∧ _
    rw [u16_jump]
    omega
  by_cases hb : decodeInstruction (fetch s) = JPREG
  · have hn := g2 hb
    rw [hb, runInstruction_JPREG_eq]
    show u16 ((u16 (((fetch s &&& 0x0FFF : Nat) : Int) + (s.v 0 : Int) - 2) : Nat) + 2) % 2 = 0
      ∧ _
    have hu := u16_jump ((fetch s &&& 0x0FFF) + s.v 0)
    rw [Nat.cast_add] at hu
    rw [hu]
    omega
  by_cases hr : decodeInstruction (fetch s) = RET
  · have hn := g3 hr
    rw [hr, runInstruction_RET_eq]
    show u16 (((s.stack s.SP : Nat) : Int) + 2) % 2 = 0 ∧ _
    have hu : u16 (((s.stack s.SP : Nat) : Int) + 2) = s.stack s.SP + 2 := by
      unfold u16; omega
    rw [hu]
    omega
  · have hroom := g4 hj hc hb hr
    obtain ⟨-, -, -, f4⟩ :=
      runInstruction_frame _ (decodeInstruction_fetch_mem s) (fetch s) h s
    have h2 : u16 ((s.PC : Int) + 2) = s.PC + 2 := by unfold u16; omega
    have h4 : u16 (((s.PC + 2 : Nat) : Int) + 2) = s.PC + 4 := by unfold u16; omega
    rcases f4 (by omega) hr hj hc hb with e | e
    · rw [e, h2]; omega
    · rw [e, h2, h4]; omega

/-- C17 (amended). For all programs, in every state reached from the initial state by
cycles whose instructions satisfy `pcGuard` (jumps, calls and returns go to even addresses in
0x200..0xFFF, other instructions sit at PC <= 0xFFB), PC is even and within 0x200..0xFFF. -/
theorem PC_stays_in_program_area (ram : Nat → Nat) (h : Nat → Host) (n : Nat)
    (hg : ∀ i < n, pcGuard (cycles i h (Machine.init ram))) :
    (cycles n h (Machine.init ram)).PC % 2 = 0 ∧
    0x200 ≤ (cycles n h (Machine.init ram)).PC ∧
    (cycles n h (Machine.init ram)).PC ≤ 0xFFF := by
  have key : inProgramArea (cycles n h (Machine.init ram)).PC := by
    induction n with
    | zero =>
      show inProgramArea 0x200
      decide
    | succ n ih =>
      rw [cycles_succ]
      exact clockCycle_inProgramArea _ _ (ih (fun i hi => hg i (by omega))) (hg n (by omega))
  exact key

set_option maxRecDepth 100000 in
theorem PC_stays_in_program_area_witness :
    (cycles 3 (fun _ => idleHost) (Machine.init (romMachine [0x12, 0x04, 0, 0, 0x12, 0x00]).ram)).PC
        % 2 = 0 ∧
    0x200 ≤ (cycles 3 (fun _ => idleHost)
      (Machine.init (romMachine [0x12, 0x04, 0, 0, 0x12, 0x00]).ram)).PC ∧
    (cycles 3 (fun _ => idleHost)
      (Machine.init (romMachine [0x12, 0x04, 0, 0, 0x12, 0x00]).ram)).PC ≤ 0xFFF :=
  PC_stays_in_program_area (romMachine [0x12, 0x04, 0, 0, 0x12, 0x00]).ram (fun _ => idleHost) 3
    (by intro i hi; interval_cases i <;> decide)

/-- C17 (counterexample). From the initial state over the program `1000` (a jump to 0x000)
one `clockCycle` leaves PC = 0x000, below 0x200; over the program `1201` it leaves PC = 0x201,
which is odd. -/
theorem PC_leaves_program_area :
    romMachine [0x10, 0x00] = Machine.init (romMachine [0x10, 0x00]).ram ∧
    (clockCycle idleHost (romMachine [0x10, 0x00])).PC = 0x000 ∧
    ¬ (0x200 ≤ (clockCycle idleHost (romMachine [0x10, 0x00])).PC) ∧
    (clockCycle idleHost (romMachine [0x12, 0x01])).PC = 0x201 ∧
    ¬ ((clockCycle idleHost (romMachine [0x12, 0x01])).PC % 2 = 0) := by
  refine ⟨rfl, by decide, by decide, by decide, by decide⟩

/-! ## Stack pointer -/

/-- One guarded cycle keeps SP inside the stack, uses a stack index inside the stack, and
moves SP by exactly one on `RET` and `CALL`. -/
theorem clockCycle_SP (h : Host) (s : Machine) (hin : s.SP < STACK_SIZE) (hg : spGuard s) :
    (clockCycle h s).SP < STACK_SIZE ∧
    (∀ idx, stackIndex (decodeInstruction (fetch s)) s = some idx → idx < STACK_SIZE) ∧
    (decodeInstruction (fetch s) = RET → (clockCycle h s).SP + 1 = s.SP) ∧
    (decodeInstruction (fetch s) = CALL → (clockCycle h s).SP = s.SP + 1) := by
  obtain ⟨g1, g2⟩ := hg
  unfold STACK_SIZE at *
  have hne : RET ≠ CALL := by decide
  rw [clockCycle_eq]
  dsimp only
  by_cases hr : decodeInstruction (fetch s) = RET
  · have h1 := g1 hr
    have hu : u8 ((s.SP : Int) - 1) = s.SP - 1 := by unfold u8; omega
    rw [hr, runInstruction_RET_eq]
    dsimp only
    rw [hu]
    refine ⟨by omega, fun idx hidx => ?_, fun _ => by omega, fun hc => absurd hc hne⟩
    unfold stackIndex at hidx
    rw [if_pos rfl] at hidx
    have := Option.some.inj hidx
    omega
  by_cases hc : decodeInstruction (fetch s) = CALL
  · have h1 := g2 hc
    have hu : u8 ((s.SP : Int) + 1) = s.SP + 1 := by unfold u8; omega
    rw [hc, runInstruction_CALL_eq]
    dsimp only
    rw [hu]
    refine ⟨by omega, fun idx hidx => ?_, fun hr2 => absurd hr2.symm hne, fun _ => rfl⟩
    unfold stackIndex at hidx
    rw [if_neg hne.symm, if_pos rfl, hu] at hidx
    have := Option.some.inj hidx
    omega
  · obtain ⟨-, -, f3, -⟩ :=
      runInstruction_frame _ (decodeInstruction_fetch_mem s) (fetch s) h s
    rw [f3 hr hc]
    refine ⟨hin, fun idx hidx => ?_, fun h1 => absurd h1 hr, fun h1 => absurd h1 hc⟩
    unfold stackIndex at hidx
    rw [if_neg hr, if_neg hc] at hidx
    cases hidx

theorem cycles_SP (ram : Nat → Nat) (h : Nat → Host) (n : Nat)
    (hg : ∀ i < n, spGuard (cycles i h (Machine.init ram))) :
    (cycles n h (Machine.init ram)).SP < STACK_SIZE := by
  induction n with
  | zero =>
    show 0 < STACK_SIZE
    decide
  | succ n ih =>
    rw [cycles_succ]
    exact (clockCycle_SP _ _ (ih (fun i hi => hg i (by omega))) (hg n (by omega))).1

/-- C18 (amended). For all programs, in every state reached from the initial state (SP = 0)
by cycles whose instructions satisfy `spGuard` (no RET with SP = 0, no CALL with SP = 15), SP
stays within 0..15, every stack read or write made by CALL and RET indexes one of the 16
slots of the stack array, RET decrements SP by exactly one and CALL increments it by exactly
one (no wrap). -/
theorem SP_stays_in_stack (ram : Nat → Nat) (h : Nat → Host) (n : Nat)
    (hg : ∀ i < n, spGuard (cycles i h (Machine.init ram))) :
    (cycles n h (Machine.init ram)).SP < STACK_SIZE ∧
    (∀ i < n, ∀ idx,
      stackIndex (decodeInstruction (fetch (cycles i h (Machine.init ram))))
        (cycles i h (Machine.init ram)) = some idx → idx < STACK_SIZE) ∧
    (∀ i < n, decodeInstruction (fetch (cycles i h (Machine.init ram))) = RET →
      (cycles (i + 1) h (Machine.init ram)).SP + 1 = (cycles i h (Machine.init ram)).SP) ∧
    (∀ i < n, decodeInstruction (fetch (cycles i h (Machine.init ram))) = CALL →
      (cycles (i + 1) h (Machine.init ram)).SP = (cycles i h (Machine.init ram)).SP + 1) := by
  have hstep : ∀ i < n, _ := fun i hi =>
    clockCycle_SP (h i) (cycles i h (Machine.init ram))
      (cycles_SP ram h i (fun j hj => hg j (by omega))) (hg i hi)
  refine ⟨cycles_SP ram h n hg, fun i hi => (hstep i hi).2.1, fun i hi hr => ?_,
    fun i hi hc => ?_⟩
  · rw [cycles_succ]; exact (hstep i hi).2.2.1 hr
  · rw [cycles_succ]; exact (hstep i hi).2.2.2 hc

set_option maxRecDepth 100000 in
theorem SP_stays_in_stack_witness :
    (cycles 15 (fun _ => idleHost) (Machine.init (romMachine nestedCalls).ram)).SP = 15 ∧
    (cycles 15 (fun _ => idleHost) (Machine.init (romMachine nestedCalls).ram)).SP
      < STACK_SIZE := by
  have hw := SP_stays_in_stack (romMachine nestedCalls).ram (fun _ => idleHost) 15
    (by intro i hi; interval_cases i <;> decide)
  exact ⟨by decide, hw.1⟩

set_option maxRecDepth 100000 in
/-- C18 (counterexample). From the initial state over the program `00EE` one `clockCycle`
wraps SP from 0 to 255; over sixteen nested calls the sixteenth CALL writes `stack[16]`, past
the 16 slots, and leaves SP = 16. -/
theorem SP_leaves_stack :
    romMachine [0x00, 0xEE] = Machine.init (romMachine [0x00, 0xEE]).ram ∧
    (romMachine [0x00, 0xEE]).SP = 0 ∧
    (clockCycle idleHost (romMachine [0x00, 0xEE])).SP = 255 ∧
    ¬ ((clockCycle idleHost (romMachine [0x00, 0xEE])).SP < STACK_SIZE) ∧
    stackIndex (decodeInstruction (fetch (cycles 15 (fun _ => idleHost) (romMachine nestedCalls))))
      (cycles 15 (fun _ => idleHost) (romMachine nestedCalls)) = some 16 ∧
    (cycles 16 (fun _ => idleHost) (romMachine nestedCalls)).SP = 16 := by
  refine ⟨rfl, rfl, by decide, by decide, by decide, by decide⟩

/-! ## Memory indices -/

/-- C19 (failing input). With I = 0x1000 and V1 = 157 the instruction `F133` stores the three
digits at the indices 0x1000, 0x1001, 0x1002 of `ram`, past its 4096 bytes; the address is not
masked to 12 bits (index 0x000 keeps its value). -/
theorem LDBVX_index_not_masked :
    bcdMachine.I = 0x1000 ∧ RAM_SIZE ≤ bcdMachine.I ∧ bcdMachine.I < 65536 ∧
    decodeInstruction 0xF133 = LDBVX ∧
    bcdMachine.ram 0x1000 = 0 ∧
    (runInstruction (decodeInstruction 0xF133) 0xF133 idleHost bcdMachine).2.ram 0x1000 = 1 ∧
    (runInstruction (decodeInstruction 0xF133) 0xF133 idleHost bcdMachine).2.ram 0x1001 = 5 ∧
    (runInstruction (decodeInstruction 0xF133) 0xF133 idleHost bcdMachine).2.ram 0x1002 = 7 ∧
    (runInstruction (decodeInstruction 0xF133) 0xF133 idleHost bcdMachine).2.ram 0x000 = 0 := by
  decide

end Clip8
